import Mathlib

/-!
Lead-capture pipeline of the tutoring site: controller, validator, routes

A shallow embedding of `ContactController.js` (the submission handler
`handleContactForm` and its two mail senders), of `contact.js` (rules of
`validateContactForm`, the routes `POST /contact` and `POST /contact/api` with their
rate limiter, the reference data) and of `server.js` with `index.js` (the global error
handler and the order of the routes).

Modelling conventions

* A JavaScript string is a `List Char`.  The regular expressions of the source have
  no `u` flag and only use classes that do not separate the two halves of a surrogate
  pair, so matching by code point and by UTF-16 code unit agree.
* A request-body field is a `JSValue`: whatever the urlencoded or JSON body parser of
  `server.js` can put in `req.body`.  Numbers are integers printed in decimal; a plain
  object stands for one whose own properties do not shadow `Object.prototype`.
* Exceptions are explicit: a computation that may raise returns an `Except JSError`.
* Effects are explicit: the calls made to the mail transport and the console lines are
  accumulated in a `World`.  What the transport does at a call (return or raise) is
  read from the `Env`, as a function of the calls made before.
* `String.prototype.toLowerCase` (Unicode case mapping) and the clock are read from
  the `Env`.  The HTML body of a mail is not modelled.
-/

namespace ContactForm

/-! ## JavaScript strings -/

/-- JavaScript string, as its sequence of characters. -/
abbrev JSString := List Char

/-- Characters matched by the class `\s` of a JavaScript regular expression, which are
also the ones removed by `String.prototype.trim` (WhiteSpace and LineTerminator). -/
def isJSWhitespace (c : Char) : Bool :=
  c.toNat ∈ [0x09, 0x0A, 0x0B, 0x0C, 0x0D, 0x20, 0xA0, 0x1680, 0x2028, 0x2029,
             0x202F, 0x205F, 0x3000, 0xFEFF]
    || (0x2000 ≤ c.toNat && c.toNat ≤ 0x200A)

/-- Characters matched by the class `\d` (no `u` flag): the ASCII digits. -/
def isDigit (c : Char) : Bool := '0' ≤ c && c ≤ '9'

/-- Method `trim` of a string: `s.trim()`. -/
def trim (s : JSString) : JSString :=
  ((s.dropWhile isJSWhitespace).reverse.dropWhile isJSWhitespace).reverse

/-- Call `s.replace(/\s+/g, '')`: every maximal run of whitespace is replaced by the
empty string, which leaves the characters that are not whitespace, in order. -/
def removeWhitespace (s : JSString) : JSString :=
  s.filter fun c => !isJSWhitespace c

/-- ASCII part of `toLowerCase`: `A`..`Z` are mapped to `a`..`z`, every other character
is kept.  `String.prototype.toLowerCase` agrees with it on ASCII strings. -/
def asciiToLowerCase (s : JSString) : JSString := s.map Char.toLower

/-! ## Regular expressions -/

/-- Regular expressions over characters, with character classes given as predicates. -/
inductive Regex where
  | empty
  | eps
  | cls (p : Char → Bool)
  | seq (a b : Regex)
  | alt (a b : Regex)
  | star (a : Regex)

namespace Regex

/-- Quantifier `a+`. -/
def plus (a : Regex) : Regex := seq a (star a)

/-- Quantifier `a{n}`. -/
def rep : Nat → Regex → Regex
  | 0, _ => eps
  | n + 1, a => seq a (rep n a)

/-- Whether the expression matches the empty string. -/
def nullable : Regex → Bool
  | empty => false
  | eps => true
  | cls _ => false
  | seq a b => nullable a && nullable b
  | alt a b => nullable a || nullable b
  | star _ => true

/-- Brzozowski derivative of an expression by a character. -/
def deriv (c : Char) : Regex → Regex
  | empty => empty
  | eps => empty
  | cls p => if p c then eps else empty
  | seq a b => if nullable a then alt (seq (deriv c a) b) (deriv c b) else seq (deriv c a) b
  | alt a b => alt (deriv c a) (deriv c b)
  | star a => seq (deriv c a) (star a)

/-- Method `test` of an expression anchored as `/^...$/`: the whole string matches. -/
def test : Regex → JSString → Bool
  | r, [] => nullable r
  | r, c :: s => test (deriv c r) s

/-- Declarative meaning of an expression: the strings it matches. -/
inductive Matches : Regex → JSString → Prop
  | eps : Matches eps []
  | cls {p : Char → Bool} {c : Char} : p c = true → Matches (cls p) [c]
  | seq {a b : Regex} {s t : JSString} : Matches a s → Matches b t → Matches (seq a b) (s ++ t)
  | altL {a b : Regex} {s : JSString} : Matches a s → Matches (alt a b) s
  | altR {a b : Regex} {s : JSString} : Matches b s → Matches (alt a b) s
  | starNil {a : Regex} : Matches (star a) []
  | starCons {a : Regex} {s t : JSString} :
      Matches a s → Matches (star a) t → Matches (star a) (s ++ t)

end Regex

/-- Class `[^\s@]`. -/
def notSpaceOrAt (c : Char) : Bool := !(isJSWhitespace c || c == '@')

/-- Expression `/^[^\s@]+@[^\s@]+\.[^\s@]+$/` of `handleContactForm`. -/
def emailRegex : Regex :=
  .seq (.plus (.cls notSpaceOrAt))
    (.seq (.cls fun c => c == '@')
      (.seq (.plus (.cls notSpaceOrAt))
        (.seq (.cls fun c => c == '.') (.plus (.cls notSpaceOrAt)))))

/-- Expression `/^[6-9]\d{9}$/` of `handleContactForm`. -/
def phoneRegex : Regex :=
  .seq (.cls fun c => '6' ≤ c && c ≤ '9') (.rep 9 (.cls isDigit))

/-! ## JavaScript values -/

/-- Values a body parser can store in a field of `req.body`. -/
inductive JSValue where
  | undefined
  | null
  | bool (b : Bool)
  | number (n : Int)
  | str (s : JSString)
  | arr (xs : List JSValue)
  | object

/-- Errors raised while a request is processed. -/
inductive JSError where
  | typeError
  | transportError
  | headersSent
  deriving DecidableEq, Repr

namespace JSValue

/-- Truthiness (`ToBoolean`): what `!v`, `v ? a : b` and `v || d` test. -/
def truthy : JSValue → Bool
  | undefined => false
  | null => false
  | bool b => b
  | number n => n != 0
  | str s => !s.isEmpty
  | arr _ => true
  | object => true

/-- Operator `v || d`. -/
def orElse (v d : JSValue) : JSValue := if v.truthy then v else d

/-- Test `Array.isArray(v)`. -/
def isArray : JSValue → Bool
  | arr _ => true
  | _ => false

mutual
/-- Conversion `ToString`, applied by `RegExp.prototype.test` to its argument. -/
def toStr : JSValue → JSString
  | undefined => "undefined".toList
  | null => "null".toList
  | bool true => "true".toList
  | bool false => "false".toList
  | number n => (toString n).toList
  | str s => s
  | arr xs => joinComma xs
  | object => "[object Object]".toList
/-- String form of an array: its elements joined with a comma. -/
def joinComma : List JSValue → JSString
  | [] => []
  | [x] => elemStr x
  | x :: y :: r => elemStr x ++ ',' :: joinComma (y :: r)
/-- String form of an array element: empty for `undefined` and `null`. -/
def elemStr : JSValue → JSString
  | undefined => []
  | null => []
  | bool true => "true".toList
  | bool false => "false".toList
  | number n => (toString n).toList
  | str s => s
  | arr xs => joinComma xs
  | object => "[object Object]".toList
end

/-- Method call `v.trim()`: raises a TypeError unless `v` is a string. -/
def callTrim : JSValue → Except JSError JSString
  | str s => .ok (trim s)
  | _ => .error .typeError

/-- Method call `v.replace(/\s+/g, '')`: raises a TypeError unless `v` is a string. -/
def callRemoveWhitespace : JSValue → Except JSError JSString
  | str s => .ok (removeWhitespace s)
  | _ => .error .typeError

/-- Method call `v.toLowerCase()`: raises a TypeError unless `v` is a string. -/
def callToLowerCase (toLowerCase : JSString → JSString) : JSValue → Except JSError JSString
  | str s => .ok (toLowerCase s)
  | _ => .error .typeError

end JSValue

/-! ## Request body and canonical record -/

/-- Fields that `handleContactForm` reads from `req.body`. -/
structure Body where
  studentName : JSValue
  parentName : JSValue
  phone : JSValue
  email : JSValue
  age : JSValue
  subjects : JSValue
  learningGoal : JSValue
  area : JSValue
  tutorGender : JSValue
  sessionType : JSValue
  budget : JSValue
  experience : JSValue
  message : JSValue

/-- Object `contactData` built by `handleContactForm`. -/
structure ContactData where
  studentName : JSString
  parentName : JSString
  phone : JSString
  email : JSString
  age : JSValue
  subjects : List JSValue
  learningGoal : JSValue
  area : JSValue
  tutorGender : JSValue
  sessionType : JSValue
  budget : JSValue
  experience : JSValue
  message : JSString
  submittedAt : Nat
  status : JSString

/-! ## Mail transport, console and environment -/

/-- Argument of `nodemailer.createTransporter`. -/
structure TransportConfig where
  host : JSString
  port : Nat
  secure : Bool
  user : Option JSString
  pass : Option JSString
  deriving DecidableEq

/-- Argument of `transporter.sendMail`, without its `html` body. -/
structure MailOptions where
  from_ : Option JSString
  to_ : Option JSString
  subject : String
  deriving DecidableEq

/-- Calls made to the mail transport. -/
inductive MailCall where
  | createTransporter (config : TransportConfig)
  | sendMail (mailOptions : MailOptions)
  deriving DecidableEq

/-- Lines written with `console.log` and `console.error` by the controller and by the
route `POST /contact/quick-call`. -/
inductive LogLine where
  | newSubmission (contactData : ContactData)
  | confirmationSent (to_ : JSString)
  | adminNotificationSent
  | errorSendingConfirmation (error : JSError)
  | errorSendingAdminNotification (error : JSError)
  | errorProcessing (error : JSError)
  | quickCallRequest (name phone subject : JSValue) (timestamp : Nat)

/-- Effects of the controller so far: calls to the mail transport and console lines,
oldest first. -/
structure World where
  mail : List MailCall
  console : List LogLine

/-- What the controller reads from outside: `process.env`, the clock, the runtime's
`toLowerCase`, and the behaviour of the mail transport (whether a call returns or
raises, given the calls made before it). -/
structure Env where
  EMAIL_HOST : Option JSString
  EMAIL_USER : Option JSString
  EMAIL_PASS : Option JSString
  ADMIN_EMAIL : Option JSString
  now : Nat
  toLowerCase : JSString → JSString
  createTransporterReturns : List MailCall → TransportConfig → Bool
  sendMailResolves : List MailCall → MailOptions → Bool

/-- Operator `a || b` on two environment variables (unset or a string). -/
def envOr : Option JSString → Option JSString → Option JSString
  | some s, b => if s.isEmpty then b else some s
  | none, b => b

/-- Response sent by the handler. -/
inductive Response where
  | redirect (url : String)
  deriving DecidableEq, Repr

/-- Configuration object that the wrapper `createTransporter` passes to nodemailer. -/
def transportConfig (env : Env) : TransportConfig :=
  { host := (envOr env.EMAIL_HOST (some "smtp.gmail.com".toList)).getD []
    port := 587
    secure := false
    user := env.EMAIL_USER
    pass := env.EMAIL_PASS }

/-- Wrapper `createTransporter` of the controller: calls `nodemailer.createTransporter`
with the configuration read from the environment. -/
def createTransporter (env : Env) (w : World) : Except JSError Unit × World :=
  let w1 : World := { w with mail := w.mail ++ [.createTransporter (transportConfig env)] }
  if env.createTransporterReturns w.mail (transportConfig env) then (.ok (), w1)
  else (.error .transportError, w1)

/-- Call `transporter.sendMail(mailOptions)`, awaited. -/
def sendMail (env : Env) (mailOptions : MailOptions) (w : World) : Except JSError Unit × World :=
  let w1 : World := { w with mail := w.mail ++ [.sendMail mailOptions] }
  if env.sendMailResolves w.mail mailOptions then (.ok (), w1)
  else (.error .transportError, w1)

/-- Object `mailOptions` of `sendConfirmationEmail`. -/
def confirmationMailOptions (env : Env) (contactData : ContactData) : MailOptions :=
  { from_ := env.EMAIL_USER
    to_ := some contactData.email
    subject := "✅ Request Received - Expert Tech Tutors Hyderabad" }

/-- Object `mailOptions` of `sendAdminNotification`. -/
def adminMailOptions (env : Env) : MailOptions :=
  { from_ := env.EMAIL_USER
    to_ := envOr env.ADMIN_EMAIL env.EMAIL_USER
    subject := "🚨 New Tech Tutor Request - Expert Tech Tutors Hyderabad" }

/-- Body of the `try` block of `sendConfirmationEmail`. -/
def sendConfirmationEmailTry (env : Env) (contactData : ContactData) (w : World) :
    Except JSError Unit × World :=
  match createTransporter env w with
  | (.error e, w1) => (.error e, w1)
  | (.ok _, w1) =>
    match sendMail env (confirmationMailOptions env contactData) w1 with
    | (.error e, w2) => (.error e, w2)
    | (.ok _, w2) =>
      (.ok (), { w2 with console := w2.console ++ [.confirmationSent contactData.email] })

/-- Function `sendConfirmationEmail`: the `try` block, with the `catch` that logs the
error and does not rethrow it. -/
def sendConfirmationEmail (env : Env) (contactData : ContactData) (w : World) :
    Except JSError Unit × World :=
  match sendConfirmationEmailTry env contactData w with
  | (.ok u, w1) => (.ok u, w1)
  | (.error e, w1) =>
    (.ok (), { w1 with console := w1.console ++ [.errorSendingConfirmation e] })

/-- Body of the `try` block of `sendAdminNotification`. -/
def sendAdminNotificationTry (env : Env) (_contactData : ContactData) (w : World) :
    Except JSError Unit × World :=
  match createTransporter env w with
  | (.error e, w1) => (.error e, w1)
  | (.ok _, w1) =>
    match sendMail env (adminMailOptions env) w1 with
    | (.error e, w2) => (.error e, w2)
    | (.ok _, w2) =>
      (.ok (), { w2 with console := w2.console ++ [.adminNotificationSent] })

/-- Function `sendAdminNotification`: the `try` block, with the `catch` that logs the
error and does not rethrow it. -/
def sendAdminNotification (env : Env) (contactData : ContactData) (w : World) :
    Except JSError Unit × World :=
  match sendAdminNotificationTry env contactData w with
  | (.ok u, w1) => (.ok u, w1)
  | (.error e, w1) =>
    (.ok (), { w1 with console := w1.console ++ [.errorSendingAdminNotification e] })

/-! ## The submission handler of `ContactController.js` -/

/-- Expression `Array.isArray(subjects) ? subjects : [subjects]`. -/
def selectedSubjects (subjects : JSValue) : List JSValue :=
  match subjects with
  | .arr xs => xs
  | v => [v]

/-- Target of the redirect for a missing required field. -/
def requiredFieldsUrl : String := "/contact?error=Please fill in all required fields"

/-- Target of the redirect for a malformed email. -/
def invalidEmailUrl : String := "/contact?error=Please enter a valid email address"

/-- Target of the redirect for an invalid phone number. -/
def invalidPhoneUrl : String := "/contact?error=Please enter a valid 10-digit phone number"

/-- Target of the redirect when no subject is selected. -/
def noSubjectUrl : String := "/contact?error=Please select at least one tech subject"

/-- Target of the redirect after a processed submission. -/
def successUrl : String :=
  "/contact?success=Thank you! We've received your request and will contact you within 2 hours with suitable tech tutor matches."

/-- Target of the redirect of the `catch` block. -/
def somethingWentWrongUrl : String :=
  "/contact?error=Something went wrong. Please try again or call us directly."

/-- Checks of `handleContactForm` before the record is built: `some r` when a check
answers with the redirect `r` and returns, `none` when all of them pass. -/
def validation (body : Body) : Except JSError (Option Response) :=
  if !body.studentName.truthy || !body.phone.truthy || !body.email.truthy
      || !body.area.truthy || !body.learningGoal.truthy then
    .ok (some (.redirect requiredFieldsUrl))
  else if !emailRegex.test body.email.toStr then
    .ok (some (.redirect invalidEmailUrl))
  else
    match body.phone.callRemoveWhitespace with
    | .error e => .error e
    | .ok digits =>
      if !phoneRegex.test digits then
        .ok (some (.redirect invalidPhoneUrl))
      else if !(JSValue.arr (selectedSubjects body.subjects)).truthy
          || (selectedSubjects body.subjects).length == 0 then
        .ok (some (.redirect noSubjectUrl))
      else
        .ok none

/-- Object literal `contactData` of `handleContactForm`. -/
def contactData (env : Env) (body : Body) : Except JSError ContactData := do
  let studentName ← body.studentName.callTrim
  let parentName ← if body.parentName.truthy then body.parentName.callTrim else pure []
  let phone ← body.phone.callRemoveWhitespace
  let lowered ← body.email.callToLowerCase env.toLowerCase
  let message ← if body.message.truthy then body.message.callTrim else pure []
  pure
    { studentName := studentName
      parentName := parentName
      phone := phone
      email := trim lowered
      age := body.age.orElse (.str "Not specified".toList)
      subjects := selectedSubjects body.subjects
      learningGoal := body.learningGoal
      area := body.area
      tutorGender := body.tutorGender.orElse (.str "No preference".toList)
      sessionType := body.sessionType.orElse (.str "home".toList)
      budget := body.budget.orElse (.str "Not specified".toList)
      experience := body.experience.orElse (.str "complete-beginner".toList)
      message := message
      submittedAt := env.now
      status := "new".toList }

/-- Body of the `try` block of `handleContactForm`. -/
def handleContactFormTry (env : Env) (body : Body) (w : World) : Except JSError Response × World :=
  match validation body with
  | .error e => (.error e, w)
  | .ok (some r) => (.ok r, w)
  | .ok none =>
    match contactData env body with
    | .error e => (.error e, w)
    | .ok data =>
      let w1 : World := { w with console := w.console ++ [.newSubmission data] }
      match sendConfirmationEmail env data w1 with
      | (.error e, w2) => (.error e, w2)
      | (.ok _, w2) =>
        match sendAdminNotification env data w2 with
        | (.error e, w3) => (.error e, w3)
        | (.ok _, w3) => (.ok (.redirect successUrl), w3)

/-- Function `handleContactForm`: the `try` block, with the `catch` that logs the error
and answers with the generic redirect. -/
def handleContactForm (env : Env) (body : Body) (w : World) : Response × World :=
  match handleContactFormTry env body w with
  | (.ok r, w1) => (r, w1)
  | (.error e, w1) =>
    (.redirect somethingWentWrongUrl, { w1 with console := w1.console ++ [.errorProcessing e] })

/-! ## The `subjects` rule of `validateContactForm` in `contact.js` -/

/-- Whitelist `validSubjects` of the custom validator. -/
def validSubjects : List JSString :=
  ["Python", "JavaScript", "Java", "C++", "React", "Node.js",
   "Data Science", "Mobile Apps", "DSA", "Databases", "AI", "Cloud"].map String.toList

/-- Call `validSubjects.includes(subject)`: only a string can equal a whitelist entry. -/
def includesSubject (subject : JSValue) : Bool :=
  match subject with
  | .str s => validSubjects.contains s
  | _ => false

/-- Custom validator of `body('subjects')`: returns `true`, or raises an error with
the given message. -/
def subjectsValidator (value : JSValue) : Except String Bool :=
  if !value.truthy || (match value with | .arr xs => xs.length == 0 | _ => false) then
    .error "Please select at least one tech subject"
  else
    let invalidSubjects := (selectedSubjects value).filter fun subject => !includesSubject subject
    if invalidSubjects.length > 0 then
      .error "Invalid subject selection"
    else
      .ok true

/-! ## Form submissions -/

/-- Field `subjects` of a submitted form: not sent, sent once, or sent as a list. -/
inductive SubjectsField where
  | absent
  | single (s : JSString)
  | many (xs : List JSString)

/-- Lead submission as the contact form sends it: every field is text, or not sent. -/
structure Submission where
  studentName : Option JSString
  parentName : Option JSString
  phone : Option JSString
  email : Option JSString
  age : Option JSString
  subjects : SubjectsField
  learningGoal : Option JSString
  area : Option JSString
  tutorGender : Option JSString
  sessionType : Option JSString
  budget : Option JSString
  experience : Option JSString
  message : Option JSString

/-- Value of a text field in `req.body`. -/
def fieldValue : Option JSString → JSValue
  | none => .undefined
  | some s => .str s

/-- Value of the field `subjects` in `req.body`. -/
def SubjectsField.toValue : SubjectsField → JSValue
  | .absent => .undefined
  | .single s => .str s
  | .many xs => .arr (xs.map .str)

/-- Parsed body `req.body` of a submission. -/
def Submission.toBody (s : Submission) : Body :=
  { studentName := fieldValue s.studentName
    parentName := fieldValue s.parentName
    phone := fieldValue s.phone
    email := fieldValue s.email
    age := fieldValue s.age
    subjects := s.subjects.toValue
    learningGoal := fieldValue s.learningGoal
    area := fieldValue s.area
    tutorGender := fieldValue s.tutorGender
    sessionType := fieldValue s.sessionType
    budget := fieldValue s.budget
    experience := fieldValue s.experience
    message := fieldValue s.message }

/-- Value of `contactData` on a form submission whose name, phone and email are the
given strings. -/
def recordOf (env : Env) (s : Submission) (n p e : JSString) : ContactData :=
  { studentName := trim n
    parentName := (s.parentName.map trim).getD []
    phone := removeWhitespace p
    email := trim (env.toLowerCase e)
    age := (fieldValue s.age).orElse (.str "Not specified".toList)
    subjects := selectedSubjects s.subjects.toValue
    learningGoal := fieldValue s.learningGoal
    area := fieldValue s.area
    tutorGender := (fieldValue s.tutorGender).orElse (.str "No preference".toList)
    sessionType := (fieldValue s.sessionType).orElse (.str "home".toList)
    budget := (fieldValue s.budget).orElse (.str "Not specified".toList)
    experience := (fieldValue s.experience).orElse (.str "complete-beginner".toList)
    message := (s.message.map trim).getD []
    submittedAt := env.now
    status := "new".toList }

/-- Calls that one notification makes to the mail transport, given the calls made
before it: a transporter is created and, when that creation returns, one mail is sent
with the given options. -/
def notificationCalls (env : Env) (before : List MailCall) (mailOptions : MailOptions) :
    List MailCall :=
  .createTransporter (transportConfig env) ::
    (if env.createTransporterReturns before (transportConfig env) then [.sendMail mailOptions]
     else [])

/-! ## Properties as the specification words them -/

/-- Stated from the specification: exactly ten digits, the first of them in 6..9. -/
def isTenDigitMobile (t : JSString) : Bool :=
  t.length == 10 && t.all Char.isDigit && t.head?.any fun d => d ∈ ['6', '7', '8', '9']

/-- Stated from the specification: a field that is missing or empty. -/
def isMissingOrEmpty : JSValue → Bool
  | .undefined => true
  | .str [] => true
  | _ => false

/-- Stated from the specification: the collection of subjects a submitted value
resolves to: none for a missing or empty value, the value itself for a single value,
the elements for a list. -/
def resolvedSubjects : JSValue → List JSValue
  | .arr xs => xs
  | v => if v.truthy then [v] else []

/-- Stated from the specification: an email with no `@`, or one with an `@` after
which no `.` comes. -/
def lacksAtOrDottedDomain (e : JSString) : Prop :=
  '@' ∉ e ∨ ∃ pre post, e = pre ++ '@' :: post ∧ '.' ∉ post

/-! ## Example data -/

/-- Environment in which every call to the mail transport returns. -/
def workingEnv : Env :=
  { EMAIL_HOST := none
    EMAIL_USER := some "info@experttechtutor.com".toList
    EMAIL_PASS := some "secret".toList
    ADMIN_EMAIL := some "admin@experttechtutor.com".toList
    now := 0
    toLowerCase := asciiToLowerCase
    createTransporterReturns := fun _ _ => true
    sendMailResolves := fun _ _ => true }

/-- Environment in which every call to the mail transport raises. -/
def failingEnv : Env :=
  { workingEnv with
    createTransporterReturns := fun _ _ => false
    sendMailResolves := fun _ _ => false }

/-- Environment with the nodemailer package as it is published: it exports
`createTransport` and no `createTransporter`, so the call made by the wrapper of the
controller raises each time; a `sendMail` call, if one were made, would resolve. -/
def nodemailerEnv : Env :=
  { workingEnv with createTransporterReturns := fun _ _ => false }

/-- World before the request: no mail call, empty console. -/
def emptyWorld : World := { mail := [], console := [] }

/-- End-to-end example of the specification. -/
def ashaRao : Submission :=
  { studentName := some "Asha Rao".toList
    parentName := none
    phone := some "9876543210".toList
    email := some "ASHA@Example.com".toList
    age := none
    subjects := .many ["Python".toList]
    learningGoal := some "beginner".toList
    area := some "Gachibowli".toList
    tutorGender := none
    sessionType := none
    budget := none
    experience := none
    message := none }

/-! ## The other rules of `validateContactForm` in `contact.js` -/

/-- Class `[a-zA-Z\s]`. -/
def letterOrSpace (c : Char) : Bool :=
  ('a' ≤ c && c ≤ 'z') || ('A' ≤ c && c ≤ 'Z') || isJSWhitespace c

/-- Expression `/^[a-zA-Z\s]+$/` of the `studentName` rule. -/
def studentNameRegex : Regex := .plus (.cls letterOrSpace)

/-- Characters that `isLength` of the validator leaves out of its count: the variation
selectors U+FE0E and U+FE0F. -/
def isVariationSelector (c : Char) : Bool := c.toNat == 0xFE0E || c.toNat == 0xFE0F

/-- Length that `isLength` of the validator compares with its bounds: the number of
characters, a surrogate pair counting once, without the variation selectors. -/
def validatorLength (value : JSString) : Nat :=
  value.length - value.countP isVariationSelector

/-- Chain `body('studentName').trim().isLength({ min: 2, max: 50 }).matches(...)` on a
text field: the messages of the validators that fail, in order.  A field that was not
sent is validated as the empty string. -/
def studentNameErrors (field : Option JSString) : List String :=
  let value := trim (field.getD [])
  (if 2 ≤ validatorLength value && validatorLength value ≤ 50 then []
    else ["Student name must be between 2-50 characters"])
  ++ (if studentNameRegex.test value then []
    else ["Student name can only contain letters and spaces"])

/-- Validator `isIn(values)` on a text field; a field that was not sent is validated as
the empty string. -/
def isIn (values : List JSString) (field : Option JSString) : Bool :=
  values.contains (field.getD [])

/-- Chain `.optional().isIn(values)` on a text field: a field that was not sent is not
validated. -/
def optionalIsIn (values : List JSString) (field : Option JSString) : Bool :=
  match field with
  | none => true
  | some v => values.contains v

/-- Values allowed for `age`. -/
def validAges : List JSString := ["10-14", "15-18", "18-22", "22+"].map String.toList

/-- Values allowed for `learningGoal`. -/
def validLearningGoals : List JSString :=
  ["beginner", "school-project", "job-prep", "career-switch", "skill-upgrade",
   "certification", "portfolio"].map String.toList

/-- Values allowed for `area`. -/
def validAreas : List JSString :=
  ["Hitech City", "Gachibowli", "Madhapur", "Banjara Hills", "Jubilee Hills",
   "Kondapur", "Miyapur", "Kukatpally", "Ameerpet", "Somajiguda",
   "Begumpet", "Secunderabad", "Other"].map String.toList

/-- Values allowed for `tutorGender`. -/
def validTutorGenders : List JSString := ["male", "female", ""].map String.toList

/-- Values allowed for `sessionType`. -/
def validSessionTypes : List JSString := ["home", "online", "both"].map String.toList

/-- Values allowed for `budget`. -/
def validBudgets : List JSString :=
  ["500-800", "800-1200", "1200-1800", "1800+", ""].map String.toList

/-- Values allowed for `experience`. -/
def validExperiences : List JSString :=
  ["complete-beginner", "some-basics", "intermediate", "advanced"].map String.toList

/-- Whether the rules of `validateContactForm` that constrain a field to a list of
values (`age`, `learningGoal`, `area`, `tutorGender`, `sessionType`, `budget`,
`experience`) all pass on a submission. -/
def passesEnumRules (s : Submission) : Bool :=
  optionalIsIn validAges s.age
    && isIn validLearningGoals s.learningGoal
    && isIn validAreas s.area
    && optionalIsIn validTutorGenders s.tutorGender
    && optionalIsIn validSessionTypes s.sessionType
    && optionalIsIn validBudgets s.budget
    && optionalIsIn validExperiences s.experience

/-! ## Reference data served by `contact.js` -/

/-- Entry of the list served by `GET /contact/subjects`. -/
structure SubjectEntry where
  id : String
  name : String
  category : String
  popular : Bool
  deriving DecidableEq

/-- Entry of the list served by `GET /contact/areas`. -/
structure AreaEntry where
  id : String
  name : String
  zone : String
  popular : Bool
  deriving DecidableEq

/-- Array `subjects` of the handler of `GET /contact/subjects`. -/
def subjectsReference : List SubjectEntry :=
  [ { id := "python", name := "Python Programming", category := "Programming", popular := true },
    { id := "javascript", name := "JavaScript & Web Dev", category := "Web Development",
      popular := true },
    { id := "java", name := "Java Programming", category := "Programming", popular := true },
    { id := "cpp", name := "C++ Programming", category := "Programming", popular := false },
    { id := "react", name := "React Development", category := "Web Development",
      popular := true },
    { id := "nodejs", name := "Node.js & Backend", category := "Web Development",
      popular := true },
    { id := "data-science", name := "Data Science & ML", category := "Data Science",
      popular := true },
    { id := "mobile-apps", name := "Mobile App Development", category := "Mobile Development",
      popular := true },
    { id := "dsa", name := "Data Structures & Algorithms", category := "Computer Science",
      popular := true },
    { id := "databases", name := "Database Management", category := "Database",
      popular := false },
    { id := "ai", name := "Artificial Intelligence", category := "AI/ML", popular := true },
    { id := "cloud", name := "Cloud Computing (AWS/Azure)", category := "Cloud",
      popular := false } ]

/-- Array `areas` of the handler of `GET /contact/areas`. -/
def areasReference : List AreaEntry :=
  [ { id := "hitech-city", name := "Hitech City", zone := "West", popular := true },
    { id := "gachibowli", name := "Gachibowli", zone := "West", popular := true },
    { id := "madhapur", name := "Madhapur", zone := "West", popular := true },
    { id := "banjara-hills", name := "Banjara Hills", zone := "Central", popular := true },
    { id := "jubilee-hills", name := "Jubilee Hills", zone := "Central", popular := true },
    { id := "kondapur", name := "Kondapur", zone := "West", popular := false },
    { id := "miyapur", name := "Miyapur", zone := "West", popular := false },
    { id := "kukatpally", name := "Kukatpally", zone := "North", popular := false },
    { id := "ameerpet", name := "Ameerpet", zone := "Central", popular := false },
    { id := "somajiguda", name := "Somajiguda", zone := "Central", popular := false },
    { id := "begumpet", name := "Begumpet", zone := "Central", popular := false },
    { id := "secunderabad", name := "Secunderabad", zone := "North", popular := false } ]

/-! ## Normalising a record again -/

/-- Raw field mapping whose fields are those of a record: what `handleContactForm`
reads when it is given its own `contactData` as `req.body`. -/
def ContactData.toBody (d : ContactData) : Body :=
  { studentName := .str d.studentName
    parentName := .str d.parentName
    phone := .str d.phone
    email := .str d.email
    age := d.age
    subjects := .arr d.subjects
    learningGoal := d.learningGoal
    area := d.area
    tutorGender := d.tutorGender
    sessionType := d.sessionType
    budget := d.budget
    experience := d.experience
    message := .str d.message }

/-- Stated from the specification: a value of 2 to 50 characters that consists of
letters and spaces only, for a given notion of letter. -/
def isLettersAndSpaces2to50 (isLetter : Char → Bool) (value : JSString) : Prop :=
  2 ≤ value.length ∧ value.length ≤ 50 ∧ ∀ c ∈ value, isLetter c = true ∨ c = ' '

/-- Stated from the amended claim: a value of 2 to 50 characters, each of them one of
the letters `a`..`z` and `A`..`Z` or a whitespace character (the class `\s`). -/
def isAsciiLettersAndWhitespace2to50 (value : JSString) : Prop :=
  2 ≤ value.length ∧ value.length ≤ 50 ∧
    ∀ c ∈ value, c.isAlpha = true ∨ isJSWhitespace c = true

/-- Name with a tab between its two words. -/
def tabbedName : JSString := "Asha".toList ++ [Char.ofNat 9] ++ "Rao".toList

/-! ## The routes `POST /contact` and `POST /contact/api` of `contact.js` -/

/-- Error reported by `validationResult(req)`: the field and the message. -/
structure ValidationError where
  param : JSString
  msg : JSString
  deriving DecidableEq

/-- Characters that `encodeURIComponent` keeps: ASCII letters and digits, and
`- _ . ! ~ * ' ( )`. -/
def isUriUnreserved (c : Char) : Bool :=
  c.isAlphanum || c.toNat ∈ [0x2D, 0x5F, 0x2E, 0x21, 0x7E, 0x2A, 0x27, 0x28, 0x29]

/-- Bytes of the UTF-8 encoding of a character. -/
def utf8Bytes (c : Char) : List Nat :=
  if c.toNat < 0x80 then [c.toNat]
  else if c.toNat < 0x800 then [0xC0 + c.toNat / 0x40, 0x80 + c.toNat % 0x40]
  else if c.toNat < 0x10000 then
    [0xE0 + c.toNat / 0x1000, 0x80 + c.toNat / 0x40 % 0x40, 0x80 + c.toNat % 0x40]
  else
    [0xF0 + c.toNat / 0x40000, 0x80 + c.toNat / 0x1000 % 0x40,
      0x80 + c.toNat / 0x40 % 0x40, 0x80 + c.toNat % 0x40]

/-- Escape `%XX` of a byte, with upper-case hexadecimal digits. -/
def percentEscape (byte : Nat) : JSString :=
  ['%', "0123456789ABCDEF".toList.getD (byte / 16) '0',
    "0123456789ABCDEF".toList.getD (byte % 16) '0']

/-- Function `encodeURIComponent`: every character that is not kept is replaced by the
escapes of the bytes of its UTF-8 encoding. -/
def encodeURIComponent (s : JSString) : JSString :=
  s.flatMap fun c => if isUriUnreserved c then [c] else (utf8Bytes c).flatMap percentEscape

/-- Middleware of `POST /contact` that handles the validation errors: `some r` when it
answers with the redirect `r`, `none` when it calls `next()`. -/
def formValidationMiddleware (errors : List ValidationError) : Option Response :=
  if !errors.isEmpty then
    let errorMessages := ". ".toList.intercalate (errors.map fun error => error.msg)
    some (.redirect ("/contact?error=" ++ String.mk (encodeURIComponent errorMessages)))
  else
    none

/-- Route `POST /contact` after the rate limiter, given the errors that
`validateContactForm` recorded and the body it left in `req.body`: the middleware for
the validation errors, then `handleContactForm`. -/
def contactFormRoute (env : Env) (errors : List ValidationError) (body : Body) (w : World) :
    Response × World :=
  match formValidationMiddleware errors with
  | some r => (r, w)
  | none => handleContactForm env body w

/-- Body of a JSON reply of the API routes. -/
inductive ApiBody where
  | success (message : String)
  | validationFailed (errors : List ValidationError)
  | failure (message : String)
  deriving DecidableEq

/-- Reply sent to the client. -/
inductive Reply where
  | redirect (url : String)
  | json (status : Nat) (body : ApiBody)
  | send (status : Nat) (text : String)
  deriving DecidableEq

/-- Reply that carries a response of `handleContactForm`. -/
def Response.toReply : Response → Reply
  | .redirect url => .redirect url

/-- Response object `res`: the reply that was sent on it, if any. -/
structure Res where
  sent : Option Reply

/-- Methods `res.json` and `res.status(code).json` of a response object: the reply is
sent, unless one was sent before, in which case the call raises
`ERR_HTTP_HEADERS_SENT`. -/
def Res.json (res : Res) (status : Nat) (body : ApiBody) : Except JSError Unit × Res :=
  match res.sent with
  | none => (.ok (), { sent := some (.json status body) })
  | some _ => (.error .headersSent, res)

/-- Middleware of `POST /contact/api` that handles the validation errors: `some r` when
it answers with the reply `r`, `none` when it calls `next()`. -/
def apiValidationMiddleware (errors : List ValidationError) : Option Reply :=
  if !errors.isEmpty then
    some (.json 400 (.validationFailed errors))
  else
    none

/-- Last handler of `POST /contact/api`, entered with a response object on which
nothing was sent: `handleContactForm` runs and answers on it with its redirect; then
`res.json` is called with the success body, and in the `catch` block
`res.status(500).json` with the failure body. -/
def apiSubmitHandler (env : Env) (body : Body) (w : World) : Except JSError Unit × Res × World :=
  match handleContactForm env body w with
  | (r, w1) =>
    let res1 : Res := { sent := some r.toReply }
    match res1.json 200
      (.success "Thank you! We've received your request and will contact you within 2 hours.") with
    | (.ok u, res2) => (.ok u, res2, w1)
    | (.error _, res2) =>
      match res2.json 500 (.failure "Something went wrong. Please try again.") with
      | (.ok u, res3) => (.ok u, res3, w1)
      | (.error e, res3) => (.error e, res3, w1)

/-- Route `POST /contact/api` after the rate limiter: the reply delivered to the
client, if any, and the world. -/
def contactApiRoute (env : Env) (errors : List ValidationError) (body : Body) (w : World) :
    Option Reply × World :=
  match apiValidationMiddleware errors with
  | some r => (some r, w)
  | none =>
    match apiSubmitHandler env body w with
    | (_, res, w1) => (res.sent, w1)

/-! ## Rate limiting -/

/-- Option `windowMs` of `contactRateLimit`. -/
def windowMs : Nat := 15 * 60 * 1000

/-- Option `max` of `contactRateLimit`. -/
def rateLimitMax : Nat := 3

/-- Option `message` of `contactRateLimit`. -/
def rateLimitMessage : String := "Too many contact form submissions, please try again later."

/-- Window of one client in the store of the limiter. -/
structure RateWindow where
  hits : Nat
  resetTime : Nat

/-- Store of the limiter: the current window of each client, if it has one. -/
abbrev RateStore := JSString → Option RateWindow

/-- Modelled from the spec: the middleware that `rateLimit` of the package
express-rate-limit returns, which is not in the sources.  A fixed window caps each
client: a request opens a window of `windowMs` when the client has none that is still
running, and counts as one more hit otherwise; it is passed on when the hits of the
window are at most `max`.  The result is whether the request is passed on, and the
updated store. -/
def contactRateLimit (store : RateStore) (client : JSString) (now : Nat) : Bool × RateStore :=
  let window : RateWindow :=
    match store client with
    | some win =>
      if now < win.resetTime then { win with hits := win.hits + 1 }
      else { hits := 1, resetTime := now + windowMs }
    | none => { hits := 1, resetTime := now + windowMs }
  (decide (window.hits ≤ rateLimitMax), fun c => if c = client then some window else store c)

/-- Fields that the route `POST /contact/quick-call` reads from `req.body`. -/
structure QuickCallBody where
  name : JSValue
  phone : JSValue
  subject : JSValue

/-- Route `POST /contact/quick-call` after the rate limiter, given the errors that its
validators recorded: status 400 with the errors, or a console line and the JSON
acknowledgement. -/
def quickCallRoute (env : Env) (errors : List ValidationError) (body : QuickCallBody)
    (w : World) : Reply × World :=
  if !errors.isEmpty then
    (.json 400 (.validationFailed errors), w)
  else
    (.json 200 (.success "We'll call you back within 30 minutes!"),
      { w with console := w.console ++
          [.quickCallRequest body.name body.phone body.subject env.now] })

/-- Payload of a request to one of the three routes that `contact.js` puts behind
`contactRateLimit`: `POST /contact`, `POST /contact/api` and `POST /contact/quick-call`. -/
inductive LimitedPayload where
  | contact (body : Body)
  | api (body : Body)
  | quickCall (body : QuickCallBody)

/-- Request to a rate-limited route: the client, the time, and what the validators of
the route make of the payload if they run (their errors and the sanitised body). -/
structure LimitedRequest where
  client : JSString
  time : Nat
  errors : List ValidationError
  payload : LimitedPayload

/-- State of the server between two requests: the one store of `contactRateLimit`,
shared by the three routes, and the world. -/
structure ServerState where
  store : RateStore
  world : World

/-- Route of a request after the rate limiter: the reply delivered to the client, if
any, and the world. -/
def routeAfterLimiter (env : Env) (req : LimitedRequest) (w : World) : Option Reply × World :=
  match req.payload with
  | .contact body =>
    match contactFormRoute env req.errors body w with
    | (r, w1) => (some r.toReply, w1)
  | .api body => contactApiRoute env req.errors body w
  | .quickCall body =>
    match quickCallRoute env req.errors body w with
    | (r, w1) => (some r, w1)

/-- Request to a rate-limited route: `contactRateLimit` first, then the validators and
the rest of the route.  A request over the limit is answered by the limiter with status
429 and its message. -/
def serveLimited (env : Env) (req : LimitedRequest) (st : ServerState) :
    Option Reply × ServerState :=
  match contactRateLimit st.store req.client req.time with
  | (false, store1) =>
    (some (.send 429 rateLimitMessage), { store := store1, world := st.world })
  | (true, store1) =>
    match routeAfterLimiter env req st.world with
    | (r, w1) => (r, { store := store1, world := w1 })

/-- Requests to the rate-limited routes served one after the other. -/
def serveLimitedAll (env : Env) :
    List LimitedRequest → ServerState → List (Option Reply) × ServerState
  | [], st => ([], st)
  | req :: rest, st =>
    match serveLimited env req st with
    | (reply, st1) =>
      match serveLimitedAll env rest st1 with
      | (replies, st2) => (reply :: replies, st2)

/-- Server on which no client has a window yet. -/
def freshServer : ServerState := { store := fun _ => none, world := emptyWorld }

/-- End-to-end example sent to `POST /contact` by one client at the given time. -/
def contactRequestAt (time : Nat) : LimitedRequest :=
  { client := "203.0.113.7".toList, time := time, errors := []
    payload := .contact ashaRao.toBody }

/-- End-to-end example sent to `POST /contact/api` by the same client. -/
def apiRequestAt (time : Nat) : LimitedRequest :=
  { client := "203.0.113.7".toList, time := time, errors := []
    payload := .api ashaRao.toBody }

/-- Quick-call request of the same client. -/
def quickCallRequestAt (time : Nat) : LimitedRequest :=
  { client := "203.0.113.7".toList, time := time, errors := []
    payload := .quickCall ⟨.str "Asha Rao".toList, .str "9876543210".toList, .undefined⟩ }

/-- Request to `POST /contact` of another client, with a payload that fails validation. -/
def otherClientRequestAt (time : Nat) : LimitedRequest :=
  { client := "198.51.100.23".toList
    time := time
    errors := [⟨"subjects".toList, "Invalid subject selection".toList⟩]
    payload := .contact ({ ashaRao with subjects := .single "COBOL".toList } : Submission).toBody }

/-! ## The global error handler of `server.js` -/

/-- Error passed to the error handler: its `status`, `message` and `stack`. -/
structure ErrorObject where
  status : JSValue
  message : JSString
  stack : JSString

/-- Object `error` given to the view `pages/error`; `details` is `none` for `null`. -/
structure ErrorLocals where
  status : JSValue
  message : JSString
  details : Option JSString

/-- Reply of the error handler: a JSON body `{ success: false, error, timestamp }`, or
the view `pages/error` with its `title` and `error`, each with its status code. -/
inductive ErrorReply where
  | json (status : JSValue) (error : JSString) (timestamp : JSString)
  | render (status : JSValue) (title : JSString) (error : ErrorLocals)

/-- Comparison `v === 404`. -/
def is404 : JSValue → Bool
  | .number n => n == 404
  | _ => false

/-- Comparison `process.env.NODE_ENV === 'production'`. -/
def isProduction (nodeEnv : Option JSString) : Bool := nodeEnv == some "production".toList

/-- Global error handler `(error, req, res, next)` of `server.js`, given
`process.env.NODE_ENV`, the timestamp of the clock and `req.originalUrl`. -/
def globalErrorHandler (nodeEnv : Option JSString) (timestamp : JSString) (error : ErrorObject)
    (originalUrl : JSString) : ErrorReply :=
  let status := error.status.orElse (.number 500)
  let message :=
    if isProduction nodeEnv then
      (if is404 status then "Page not found".toList else "Something went wrong".toList)
    else error.message
  if "/api/".toList.isPrefixOf originalUrl then
    .json status message timestamp
  else
    .render status ("Error ".toList ++ status.toStr)
      { status := status
        message := message
        details := if isProduction nodeEnv then none else some error.stack }

/-- Message that a reply of the error handler carries. -/
def ErrorReply.message : ErrorReply → JSString
  | .json _ error _ => error
  | .render _ _ error => error.message

/-- Field `details` of a reply of the error handler, for a rendered page. -/
def ErrorReply.details : ErrorReply → Option JSString
  | .json _ _ _ => none
  | .render _ _ error => error.details

/-! ## Routing in `server.js` -/

/-- Request methods. -/
inductive Method where
  | GET
  | POST
  | PUT
  | DELETE
  deriving DecidableEq

/-- Path of a route: a path as written, or `*`. -/
inductive PathPattern where
  | exact (path : String)
  | star
  deriving DecidableEq

/-- Handlers that answer a request in `server.js` and `index.js`. -/
inductive Handler where
  | home
  | about
  | services
  | contact
  | courses
  | blog
  | indexNotFound
  | health
  | apiStatus
  | forwardNotFound
  deriving DecidableEq

/-- Route: the method (`none` for `app.use`, which takes every method), the path and
the handler. -/
structure Route where
  method : Option Method
  pattern : PathPattern
  handler : Handler
  deriving DecidableEq

/-- Routes of the router of `index.js`, in the order of their registration. -/
def indexRoutes : List Route :=
  [ ⟨some .GET, .exact "/", .home⟩,
    ⟨some .GET, .exact "/about", .about⟩,
    ⟨some .GET, .exact "/services", .services⟩,
    ⟨some .GET, .exact "/contact", .contact⟩,
    ⟨some .GET, .exact "/courses", .courses⟩,
    ⟨some .GET, .exact "/blog", .blog⟩,
    ⟨some .GET, .star, .indexNotFound⟩ ]

/-- Handlers of `server.js` that answer, in the order of their registration:
`app.use('/', indexRoutes)`, `app.get('/health')`, `app.get('/api/status')` and the
middleware that forwards a 404 to the error handler.  The middleware registered before
them always calls `next()`. -/
def serverRoutes : List Route :=
  indexRoutes ++
    [ ⟨some .GET, .exact "/health", .health⟩,
      ⟨some .GET, .exact "/api/status", .apiStatus⟩,
      ⟨none, .star, .forwardNotFound⟩ ]

/-- Whether a route takes a request with the given method and path. -/
def Route.takes (route : Route) (method : Method) (path : String) : Bool :=
  (match route.method with
    | none => true
    | some m => m == method)
  && (match route.pattern with
    | .star => true
    | .exact p => p == path)

/-- First-match routing: the handler of the first registered route that takes the
request. -/
def dispatch (routes : List Route) (method : Method) (path : String) : Option Handler :=
  (routes.find? fun route => route.takes method path).map (·.handler)

/-- Status code with which a handler answers: 200 by default, 404 for the two
not-found handlers. -/
def Handler.status : Handler → Nat
  | .indexNotFound => 404
  | .forwardNotFound => 404
  | _ => 200

/-! ## Trimming and stripping, as the specification words them -/

/-- Stated from the specification: `t` is `s` trimmed, that is `s` without the
whitespace at its two ends: `s` is `t` between two runs of whitespace, and `t` neither
starts nor ends with a whitespace character. -/
def IsTrimmedFormOf (t s : JSString) : Prop :=
  (∃ before after, s = before ++ t ++ after ∧
      (∀ c ∈ before, isJSWhitespace c = true) ∧ (∀ c ∈ after, isJSWhitespace c = true)) ∧
    (∀ c rest, t = c :: rest → isJSWhitespace c = false) ∧
    (∀ init c, t = init ++ [c] → isJSWhitespace c = false)

/-- Stated from the specification: `t` is `s` with all whitespace removed: `t` keeps
characters of `s` in their order, has no whitespace character, and is shorter than `s`
by the number of whitespace characters of `s`. -/
def IsWhitespaceFreeFormOf (t s : JSString) : Prop :=
  t.Sublist s ∧ (∀ c ∈ t, isJSWhitespace c = false) ∧
    t.length + s.countP isJSWhitespace = s.length

/-- End-to-end example typed with stray whitespace: around the name, inside the phone
and around the message. -/
def ashaRaoSpaced : Submission :=
  { ashaRao with
    studentName := some "  Asha Rao ".toList
    phone := some "98765 43210".toList
    message := some " Evening classes please  ".toList }

/-! ## The `message` rule and the values of `status` -/

/-- Chain `body('message').optional().trim().isLength({ max: 500 })` on a text field:
the messages of the validators that fail.  A field that was not sent is not
validated. -/
def messageErrors (field : Option JSString) : List String :=
  match field with
  | none => []
  | some m =>
    if validatorLength (trim m) ≤ 500 then []
    else ["Message must be less than 500 characters"]

/-- Values allowed for `status` by the route `PUT /contact/admin/:id/status`. -/
def validStatuses : List JSString :=
  ["new", "contacted", "matched", "closed"].map String.toList

/-- Message of 501 characters: 500 letters and the variation selector U+FE0F. -/
def longMessage : JSString := List.replicate 500 'a' ++ [Char.ofNat 0xFE0F]

/-- End-to-end example sent with the message of 501 characters. -/
def ashaRaoLongMessage : Submission := { ashaRao with message := some longMessage }

end ContactForm

/-! ## The matcher agrees with the meaning of an expression -/

namespace ContactForm

namespace Regex

theorem not_matches_empty (x : JSString) : ¬ Matches empty x := by
  intro h
  cases h

theorem matches_eps_iff {x : JSString} : Matches eps x ↔ x = [] := by
  constructor
  · intro h
    cases h
    rfl
  · rintro rfl
    exact Matches.eps

theorem matches_cls_iff {p : Char → Bool} {x : JSString} :
    Matches (cls p) x ↔ ∃ c, p c = true ∧ x = [c] := by
  constructor
  · intro h
    cases h with
    | cls hc => exact ⟨_, hc, rfl⟩
  · rintro ⟨c, hc, rfl⟩
    exact Matches.cls hc

theorem matches_seq_iff {a b : Regex} {x : JSString} :
    Matches (seq a b) x ↔ ∃ s t, x = s ++ t ∧ Matches a s ∧ Matches b t := by
  constructor
  · intro h
    cases h with
    | seq ha hb => exact ⟨_, _, rfl, ha, hb⟩
  · rintro ⟨s, t, rfl, ha, hb⟩
    exact Matches.seq ha hb

theorem matches_alt_iff {a b : Regex} {x : JSString} :
    Matches (alt a b) x ↔ Matches a x ∨ Matches b x := by
  constructor
  · intro h
    cases h with
    | altL ha => exact Or.inl ha
    | altR hb => exact Or.inr hb
  · rintro (ha | hb)
    · exact Matches.altL ha
    · exact Matches.altR hb

theorem matches_star_cons_aux {r : Regex} {y : JSString} (h : Matches r y) :
    ∀ (a : Regex) (c : Char) (x : JSString), r = star a → y = c :: x →
      ∃ s t, x = s ++ t ∧ Matches a (c :: s) ∧ Matches (star a) t := by
  induction h with
  | eps => intro a c x hr; cases hr
  | cls _ => intro a c x hr; cases hr
  | seq _ _ _ _ => intro a c x hr; cases hr
  | altL _ _ => intro a c x hr; cases hr
  | altR _ _ => intro a c x hr; cases hr
  | starNil => intro a c x _ hy; cases hy
  | @starCons a0 s t hs ht _ iht =>
    intro a c x hr hy
    cases hr
    cases s with
    | nil => exact iht _ c x rfl (by simpa using hy)
    | cons d s1 =>
      simp only [List.cons_append, List.cons.injEq] at hy
      obtain ⟨rfl, rfl⟩ := hy
      exact ⟨s1, t, rfl, hs, ht⟩

theorem matches_star_cons_iff {a : Regex} {c : Char} {x : JSString} :
    Matches (star a) (c :: x) ↔
      ∃ s t, x = s ++ t ∧ Matches a (c :: s) ∧ Matches (star a) t := by
  constructor
  · intro h
    exact matches_star_cons_aux h a c x rfl rfl
  · rintro ⟨s, t, rfl, hs, ht⟩
    exact Matches.starCons hs ht

theorem nullable_iff (r : Regex) : nullable r = true ↔ Matches r [] := by
  induction r with
  | empty => simp [nullable, not_matches_empty]
  | eps => simp [nullable, matches_eps_iff]
  | cls p => simp [nullable, matches_cls_iff]
  | seq a b iha ihb =>
    simp only [nullable, Bool.and_eq_true, iha, ihb, matches_seq_iff]
    constructor
    · rintro ⟨ha, hb⟩
      exact ⟨[], [], rfl, ha, hb⟩
    · rintro ⟨s, t, hst, ha, hb⟩
      have h := List.append_eq_nil.mp hst.symm
      rw [h.1] at ha
      rw [h.2] at hb
      exact ⟨ha, hb⟩
  | alt a b iha ihb => simp [nullable, iha, ihb, matches_alt_iff]
  | star a _ => simp [nullable, Matches.starNil]

theorem matches_deriv_iff (r : Regex) (c : Char) :
    ∀ x : JSString, Matches (deriv c r) x ↔ Matches r (c :: x) := by
  induction r with
  | empty => intro x; simp [deriv, not_matches_empty]
  | eps => intro x; simp [deriv, not_matches_empty, matches_eps_iff]
  | cls p =>
    intro x
    by_cases hp : p c = true
    · simp only [deriv, hp, if_true, matches_eps_iff, matches_cls_iff]
      constructor
      · rintro rfl
        exact ⟨c, hp, rfl⟩
      · rintro ⟨d, _, hd⟩
        simp only [List.cons.injEq] at hd
        exact hd.2
    · simp only [deriv, hp, matches_cls_iff]
      constructor
      · intro h
        exact absurd h (not_matches_empty x)
      · rintro ⟨d, hd, hx⟩
        simp only [List.cons.injEq] at hx
        rw [← hx.1] at hd
        exact absurd hd hp
  | seq a b iha ihb =>
    intro x
    have hcons : Matches (seq a b) (c :: x) ↔
        (∃ s t, x = s ++ t ∧ Matches a (c :: s) ∧ Matches b t) ∨
          (Matches a [] ∧ Matches b (c :: x)) := by
      rw [matches_seq_iff]
      constructor
      · rintro ⟨s, t, hst, ha, hb⟩
        cases s with
        | nil =>
          right
          simp only [List.nil_append] at hst
          rw [hst]
          exact ⟨ha, hb⟩
        | cons d s1 =>
          left
          simp only [List.cons_append, List.cons.injEq] at hst
          obtain ⟨rfl, rfl⟩ := hst
          exact ⟨s1, t, rfl, ha, hb⟩
      · rintro (⟨s, t, rfl, ha, hb⟩ | ⟨ha, hb⟩)
        · exact ⟨c :: s, t, rfl, ha, hb⟩
        · exact ⟨[], c :: x, rfl, ha, hb⟩
    have hleft : Matches (seq (deriv c a) b) x ↔
        ∃ s t, x = s ++ t ∧ Matches a (c :: s) ∧ Matches b t := by
      rw [matches_seq_iff]
      constructor
      · rintro ⟨s, t, hst, ha, hb⟩
        exact ⟨s, t, hst, (iha s).mp ha, hb⟩
      · rintro ⟨s, t, hst, ha, hb⟩
        exact ⟨s, t, hst, (iha s).mpr ha, hb⟩
    rw [hcons]
    by_cases hn : nullable a = true
    · simp only [deriv, hn, if_true, matches_alt_iff, hleft, ihb x]
      have hnil : Matches a [] := (nullable_iff a).mp hn
      simp [hnil]
    · have hd : deriv c (seq a b) = seq (deriv c a) b := by simp [deriv, hn]
      have hnil : ¬ Matches a [] := fun h => hn ((nullable_iff a).mpr h)
      rw [hd, hleft]
      simp [hnil]
  | alt a b iha ihb =>
    intro x
    simp only [deriv, matches_alt_iff, iha x, ihb x]
  | star a iha =>
    intro x
    rw [matches_star_cons_iff]
    simp only [deriv, matches_seq_iff]
    constructor
    · rintro ⟨s, t, hst, ha, hb⟩
      exact ⟨s, t, hst, (iha s).mp ha, hb⟩
    · rintro ⟨s, t, hst, ha, hb⟩
      exact ⟨s, t, hst, (iha s).mpr ha, hb⟩

theorem test_iff (r : Regex) (x : JSString) : test r x = true ↔ Matches r x := by
  induction x generalizing r with
  | nil => simpa [test] using nullable_iff r
  | cons c x ih => rw [test, ih, matches_deriv_iff]

theorem matches_star_cls_iff (p : Char → Bool) (x : JSString) :
    Matches (star (cls p)) x ↔ ∀ c ∈ x, p c = true := by
  induction x with
  | nil => simp [Matches.starNil]
  | cons d x ih =>
    rw [matches_star_cons_iff]
    constructor
    · rintro ⟨s, t, rfl, hs, ht⟩
      obtain ⟨e, he, hse⟩ := matches_cls_iff.mp hs
      simp only [List.cons.injEq] at hse
      obtain ⟨rfl, rfl⟩ := hse
      intro c hc
      simp only [List.nil_append, List.mem_cons] at hc
      rcases hc with rfl | hc
      · exact he
      · exact (ih.mp (by simpa using ht)) c hc
    · intro h
      refine ⟨[], x, rfl, Matches.cls (h d (List.mem_cons_self d x)), ?_⟩
      exact ih.mpr fun c hc => h c (List.mem_cons_of_mem d hc)

theorem matches_plus_cls_iff (p : Char → Bool) (x : JSString) :
    Matches (plus (cls p)) x ↔ x ≠ [] ∧ ∀ c ∈ x, p c = true := by
  unfold plus
  rw [matches_seq_iff]
  constructor
  · rintro ⟨s, t, rfl, hs, ht⟩
    obtain ⟨e, he, rfl⟩ := matches_cls_iff.mp hs
    refine ⟨by simp, ?_⟩
    intro c hc
    simp only [List.singleton_append, List.mem_cons] at hc
    rcases hc with rfl | hc
    · exact he
    · exact (matches_star_cls_iff p t).mp ht c hc
  · rintro ⟨hne, h⟩
    cases x with
    | nil => exact absurd rfl hne
    | cons d x =>
      refine ⟨[d], x, rfl, Matches.cls (h d (List.mem_cons_self d x)), ?_⟩
      exact (matches_star_cls_iff p x).mpr fun c hc => h c (List.mem_cons_of_mem d hc)

theorem matches_rep_cls_iff (p : Char → Bool) (n : Nat) :
    ∀ x : JSString, Matches (rep n (cls p)) x ↔ x.length = n ∧ ∀ c ∈ x, p c = true := by
  induction n with
  | zero =>
    intro x
    simp only [rep, matches_eps_iff]
    constructor
    · rintro rfl
      simp
    · rintro ⟨h, _⟩
      exact List.length_eq_zero.mp h
  | succ n ih =>
    intro x
    simp only [rep, matches_seq_iff, matches_cls_iff]
    constructor
    · rintro ⟨s, t, rfl, ⟨e, he, rfl⟩, ht⟩
      obtain ⟨hlen, hall⟩ := (ih t).mp ht
      refine ⟨by simp [hlen], ?_⟩
      intro c hc
      simp only [List.singleton_append, List.mem_cons] at hc
      rcases hc with rfl | hc
      · exact he
      · exact hall c hc
    · rintro ⟨hlen, hall⟩
      cases x with
      | nil => simp at hlen
      | cons d x =>
        refine ⟨[d], x, rfl, ⟨d, hall d (List.mem_cons_self d x), rfl⟩, ?_⟩
        refine (ih x).mpr ⟨by simpa using hlen, ?_⟩
        exact fun c hc => hall c (List.mem_cons_of_mem d hc)

end Regex

/-! ## The two expressions of the handler -/

theorem matches_emailRegex_iff (x : JSString) :
    emailRegex.Matches x ↔
      ∃ a b c, x = a ++ '@' :: (b ++ '.' :: c) ∧ a ≠ [] ∧ b ≠ [] ∧ c ≠ [] ∧
        (∀ ch ∈ a, notSpaceOrAt ch = true) ∧ (∀ ch ∈ b, notSpaceOrAt ch = true) ∧
        (∀ ch ∈ c, notSpaceOrAt ch = true) := by
  unfold emailRegex
  simp only [Regex.matches_seq_iff, Regex.matches_plus_cls_iff, Regex.matches_cls_iff]
  constructor
  · rintro ⟨a, _, rfl, ⟨ha, hpa⟩, _, _, rfl, ⟨c1, hc1, rfl⟩, b, _, rfl, ⟨hb, hpb⟩, _, c, rfl,
      ⟨c2, hc2, rfl⟩, hc, hpc⟩
    have e1 : c1 = '@' := by simpa using hc1
    have e2 : c2 = '.' := by simpa using hc2
    subst e1 e2
    exact ⟨a, b, c, by simp, ha, hb, hc, hpa, hpb, hpc⟩
  · rintro ⟨a, b, c, rfl, ha, hb, hc, hpa, hpb, hpc⟩
    exact ⟨a, _, rfl, ⟨ha, hpa⟩, ['@'], _, rfl, ⟨'@', by simp, rfl⟩, b, _, rfl, ⟨hb, hpb⟩,
      ['.'], c, rfl, ⟨'.', by simp, rfl⟩, hc, hpc⟩

theorem not_mem_of_notSpaceOrAt {a : JSString} (h : ∀ ch ∈ a, notSpaceOrAt ch = true) :
    '@' ∉ a := by
  intro hmem
  have := h '@' hmem
  simp [notSpaceOrAt] at this

theorem emailRegex_test_eq_false_of_lacks {e : JSString} (h : lacksAtOrDottedDomain e) :
    emailRegex.test e = false := by
  rw [Bool.eq_false_iff]
  intro ht
  obtain ⟨a, b, c, rfl, _, _, _, hpa, hpb, hpc⟩ :=
    (matches_emailRegex_iff e).mp ((Regex.test_iff _ _).mp ht)
  have hata : '@' ∉ a := not_mem_of_notSpaceOrAt hpa
  have hatr : '@' ∉ b ++ '.' :: c := by
    intro hmem
    rcases List.mem_append.mp hmem with hb | hc
    · exact not_mem_of_notSpaceOrAt hpb hb
    · rcases List.mem_cons.mp hc with hdot | hc
      · exact absurd hdot (by decide)
      · exact not_mem_of_notSpaceOrAt hpc hc
  rcases h with hno | ⟨pre, post, heq, hdot⟩
  · exact hno (by simp)
  · have hpost : post = b ++ '.' :: c := by
      rcases List.append_eq_append_iff.mp heq with ⟨k, hk1, hk2⟩ | ⟨k, hk1, hk2⟩
      · cases k with
        | nil => simpa using hk2.symm
        | cons d k =>
          simp only [List.cons_append, List.cons.injEq] at hk2
          exact absurd (hk2.2 ▸ (by simp : '@' ∈ k ++ '@' :: post)) hatr
      · cases k with
        | nil => simpa using hk2
        | cons d k =>
          simp only [List.cons_append, List.cons.injEq] at hk2
          obtain ⟨rfl, _⟩ := hk2
          exact absurd (hk1 ▸ (by simp : '@' ∈ pre ++ '@' :: k)) hata
    exact hdot (hpost ▸ (by simp))

theorem sixToNine_iff (c : Char) : ('6' ≤ c ∧ c ≤ '9') ↔ c ∈ ['6', '7', '8', '9'] := by
  constructor
  · rintro ⟨h1, h2⟩
    have h1n : 54 ≤ c.toNat := h1
    have h2n : c.toNat ≤ 57 := h2
    have hc : c = Char.ofNat c.toNat := (Char.ofNat_toNat c).symm
    have : c.toNat = 54 ∨ c.toNat = 55 ∨ c.toNat = 56 ∨ c.toNat = 57 := by omega
    rcases this with h | h | h | h <;> rw [h] at hc <;> rw [hc] <;> decide
  · intro h
    simp only [List.mem_cons, List.mem_singleton, List.not_mem_nil, or_false] at h
    rcases h with rfl | rfl | rfl | rfl <;> decide

theorem isDigit_eq (c : Char) : isDigit c = c.isDigit := rfl

theorem phoneRegex_test_eq (t : JSString) : phoneRegex.test t = isTenDigitMobile t := by
  rw [Bool.eq_iff_iff, Regex.test_iff]
  unfold phoneRegex isTenDigitMobile
  simp only [Regex.matches_seq_iff, Regex.matches_rep_cls_iff, Regex.matches_cls_iff,
    Bool.and_eq_true, beq_iff_eq, List.all_eq_true, decide_eq_true_eq, isDigit_eq]
  constructor
  · rintro ⟨_, ds, rfl, ⟨d, hd, rfl⟩, hlen, hall⟩
    have hd2 : d ∈ ['6', '7', '8', '9'] := (sixToNine_iff d).mp (by simpa using hd)
    refine ⟨⟨by simp [hlen], ?_⟩, by simpa using hd2⟩
    intro c hc
    simp only [List.singleton_append, List.mem_cons] at hc
    rcases hc with rfl | hc
    · simp only [List.mem_cons, List.mem_singleton, List.not_mem_nil, or_false] at hd2
      rcases hd2 with rfl | rfl | rfl | rfl <;> decide
    · exact hall c hc
  · rintro ⟨⟨hlen, hall⟩, hhead⟩
    cases t with
    | nil => simp at hlen
    | cons d ds =>
      have hd2 : d ∈ ['6', '7', '8', '9'] := by simpa using hhead
      refine ⟨[d], ds, rfl, ⟨d, by simpa using (sixToNine_iff d).mpr hd2, rfl⟩,
        by simpa using hlen, ?_⟩
      exact fun c hc => hall c (List.mem_cons_of_mem d hc)

/-! ## The mail senders and the handler -/

theorem sendConfirmationEmail_fst (env : Env) (data : ContactData) (w : World) :
    (sendConfirmationEmail env data w).1 = .ok () := by
  unfold sendConfirmationEmail
  rcases h : sendConfirmationEmailTry env data w with ⟨r, w1⟩
  cases r <;> rfl

theorem sendAdminNotification_fst (env : Env) (data : ContactData) (w : World) :
    (sendAdminNotification env data w).1 = .ok () := by
  unfold sendAdminNotification
  rcases h : sendAdminNotificationTry env data w with ⟨r, w1⟩
  cases r <;> rfl

theorem sendConfirmationEmail_mail (env : Env) (data : ContactData) (w : World) :
    (sendConfirmationEmail env data w).2.mail =
      w.mail ++ notificationCalls env w.mail (confirmationMailOptions env data) := by
  unfold notificationCalls sendConfirmationEmail sendConfirmationEmailTry createTransporter sendMail
  by_cases hc : env.createTransporterReturns w.mail (transportConfig env) = true
  · by_cases hs : env.sendMailResolves (w.mail ++ [.createTransporter (transportConfig env)])
        (confirmationMailOptions env data) = true
    · simp [hc, hs]
    · simp [hc, hs]
  · simp [hc]

theorem sendAdminNotification_mail (env : Env) (data : ContactData) (w : World) :
    (sendAdminNotification env data w).2.mail =
      w.mail ++ notificationCalls env w.mail (adminMailOptions env) := by
  unfold notificationCalls sendAdminNotification sendAdminNotificationTry createTransporter sendMail
  by_cases hc : env.createTransporterReturns w.mail (transportConfig env) = true
  · by_cases hs : env.sendMailResolves (w.mail ++ [.createTransporter (transportConfig env)])
        (adminMailOptions env) = true
    · simp [hc, hs]
    · simp [hc, hs]
  · simp [hc]

theorem handleContactForm_of_rejected (env : Env) (b : Body) (w : World) (r : Response)
    (h : validation b = .ok (some r)) : handleContactForm env b w = (r, w) := by
  simp [handleContactForm, handleContactFormTry, h]

theorem handleContactForm_of_raised (env : Env) (b : Body) (w : World) (e : JSError)
    (h : validation b = .error e ∨ (validation b = .ok none ∧ contactData env b = .error e)) :
    handleContactForm env b w =
      (.redirect somethingWentWrongUrl, { w with console := w.console ++ [.errorProcessing e] }) := by
  rcases h with h | ⟨h1, h2⟩
  · simp [handleContactForm, handleContactFormTry, h]
  · simp [handleContactForm, handleContactFormTry, h1, h2]

theorem handleContactForm_of_built (env : Env) (b : Body) (w : World) (data : ContactData)
    (hv : validation b = .ok none) (hd : contactData env b = .ok data) :
    handleContactForm env b w =
      (.redirect successUrl,
        (sendAdminNotification env data
          (sendConfirmationEmail env data
            { w with console := w.console ++ [.newSubmission data] }).2).2) := by
  have h1 := sendConfirmationEmail_fst env data { w with console := w.console ++ [.newSubmission data] }
  rcases hc : sendConfirmationEmail env data
    { w with console := w.console ++ [.newSubmission data] } with ⟨r1, w2⟩
  rw [hc] at h1
  have h2 := sendAdminNotification_fst env data w2
  rcases ha : sendAdminNotification env data w2 with ⟨r2, w3⟩
  rw [ha] at h2
  simp only at h1 h2
  subst h1 h2
  simp [handleContactForm, handleContactFormTry, hv, hd, hc, ha]

theorem validation_of_falsy (b : Body)
    (h : b.studentName.truthy = false ∨ b.phone.truthy = false ∨ b.email.truthy = false ∨
      b.area.truthy = false ∨ b.learningGoal.truthy = false) :
    validation b = .ok (some (.redirect requiredFieldsUrl)) := by
  unfold validation
  rcases h with h | h | h | h | h <;> simp [h]

theorem truthy_of_isMissingOrEmpty {v : JSValue} (h : isMissingOrEmpty v = true) :
    v.truthy = false := by
  cases v with
  | str s => cases s with
    | nil => rfl
    | cons c cs => simp [isMissingOrEmpty] at h
  | undefined => rfl
  | _ => simp [isMissingOrEmpty] at h

theorem truthy_str_of_ne_nil {p : JSString} (h : p ≠ []) : (JSValue.str p).truthy = true := by
  cases p with
  | nil => exact absurd rfl h
  | cons c cs => rfl

theorem handleContactForm_fst_of_valid (env : Env) (b : Body) (w : World)
    (hv : validation b = .ok none) :
    (handleContactForm env b w).1 = .redirect successUrl ∨
      (handleContactForm env b w).1 = .redirect somethingWentWrongUrl := by
  cases hd : contactData env b with
  | error e =>
    right
    rw [handleContactForm_of_raised env b w e (Or.inr ⟨hv, hd⟩)]
  | ok data =>
    left
    rw [handleContactForm_of_built env b w data hv hd]

/-- C1 (amended).  For a body whose other required fields are present, whose email is a
well-formed string and whose phone is a non-empty string `p`: the handler answers with
the redirect `/contact?error=Please enter a valid 10-digit phone number`, leaving the
world as it was, when `p` without its whitespace is not ten digits starting with 6..9,
and does not answer with that redirect when it is. -/
theorem phone_check_of_nonempty_phone (env : Env) (b : Body) (w : World) (e p : JSString)
    (hname : b.studentName.truthy = true) (harea : b.area.truthy = true)
    (hgoal : b.learningGoal.truthy = true)
    (hemail : b.email = .str e) (hwf : emailRegex.test e = true)
    (hphone : b.phone = .str p) (hp : p ≠ []) :
    (isTenDigitMobile (removeWhitespace p) = false →
        handleContactForm env b w = (.redirect invalidPhoneUrl, w)) ∧
      (isTenDigitMobile (removeWhitespace p) = true →
        (handleContactForm env b w).1 ≠ .redirect invalidPhoneUrl) := by
  have hpt : (JSValue.str p).truthy = true := truthy_str_of_ne_nil hp
  have het : (JSValue.str e).truthy = true := by
    apply truthy_str_of_ne_nil
    rintro rfl
    exact absurd hwf (by decide)
  constructor
  · intro hbad
    apply handleContactForm_of_rejected
    simp [validation, hname, harea, hgoal, hpt, het, hemail, JSValue.toStr, hwf, hphone,
      JSValue.callRemoveWhitespace, phoneRegex_test_eq, hbad]
  · intro hgood
    by_cases hsub : (selectedSubjects b.subjects).length = 0
    · have hv : validation b = .ok (some (.redirect noSubjectUrl)) := by
        simp [validation, hname, harea, hgoal, hpt, het, hemail, JSValue.toStr, hwf, hphone,
          JSValue.callRemoveWhitespace, phoneRegex_test_eq, hgood, hsub]
      rw [handleContactForm_of_rejected env b w _ hv]
      show Response.redirect noSubjectUrl ≠ .redirect invalidPhoneUrl
      decide
    · have hv : validation b = .ok none := by
        simp [validation, hname, harea, hgoal, hpt, het, hemail, JSValue.toStr, hwf, hphone,
          JSValue.callRemoveWhitespace, phoneRegex_test_eq, hgood, hsub]
        rfl
      rcases handleContactForm_fst_of_valid env b w hv with h | h <;> rw [h] <;> decide

/-- Witness of `phone_check_of_nonempty_phone`: the end-to-end example of the
specification, once with the phone `12345` and once with its own phone. -/
theorem phone_check_of_nonempty_phone_witness :
    handleContactForm workingEnv ({ ashaRao with phone := some "12345".toList } : Submission).toBody emptyWorld
        = (.redirect invalidPhoneUrl, emptyWorld) ∧
      (handleContactForm workingEnv ashaRao.toBody emptyWorld).1 ≠ .redirect invalidPhoneUrl :=
  ⟨(phone_check_of_nonempty_phone workingEnv
      ({ ashaRao with phone := some "12345".toList } : Submission).toBody emptyWorld
      "ASHA@Example.com".toList "12345".toList rfl rfl rfl rfl (by decide) rfl (by decide)).1
      (by decide),
    (phone_check_of_nonempty_phone workingEnv ashaRao.toBody emptyWorld
      "ASHA@Example.com".toList "9876543210".toList rfl rfl rfl rfl (by decide) rfl
      (by decide)).2 (by decide)⟩

/-- C1 (as stated) fails for the empty phone string: with the other required fields
present and a well-formed email, the empty phone is not ten digits, yet the handler
answers with the redirect for missing required fields, not with the one for an invalid
phone number. -/
theorem empty_phone_gets_required_fields_redirect :
    emailRegex.test "ASHA@Example.com".toList = true ∧
      isTenDigitMobile (removeWhitespace []) = false ∧
      handleContactForm workingEnv ({ ashaRao with phone := some [] } : Submission).toBody emptyWorld
        = (.redirect requiredFieldsUrl, emptyWorld) ∧
      Response.redirect requiredFieldsUrl ≠ .redirect invalidPhoneUrl :=
  ⟨by decide, by decide, rfl, by decide⟩

/-- C2.  For a body with all required fields present whose email is a string with no
`@`, or with an `@` after which no `.` comes, the handler answers with the redirect
`/contact?error=Please enter a valid email address` and leaves the world as it was. -/
theorem email_lacking_at_or_dot_rejected (env : Env) (b : Body) (w : World) (e : JSString)
    (hname : b.studentName.truthy = true) (hphone : b.phone.truthy = true)
    (harea : b.area.truthy = true) (hgoal : b.learningGoal.truthy = true)
    (hemail : b.email = .str e) (hpresent : e ≠ [])
    (hbad : lacksAtOrDottedDomain e) :
    handleContactForm env b w = (.redirect invalidEmailUrl, w) := by
  have het : (JSValue.str e).truthy = true := truthy_str_of_ne_nil hpresent
  apply handleContactForm_of_rejected
  simp [validation, hname, harea, hgoal, hphone, het, hemail, JSValue.toStr,
    emailRegex_test_eq_false_of_lacks hbad]

/-- Witness of `email_lacking_at_or_dot_rejected`: the email `asha@examplecom`, whose
part after the `@` has no dot. -/
theorem email_lacking_at_or_dot_rejected_witness :
    handleContactForm workingEnv
        ({ ashaRao with email := some "asha@examplecom".toList } : Submission).toBody emptyWorld
      = (.redirect invalidEmailUrl, emptyWorld) :=
  email_lacking_at_or_dot_rejected workingEnv
    ({ ashaRao with email := some "asha@examplecom".toList } : Submission).toBody emptyWorld
    "asha@examplecom".toList rfl rfl rfl rfl rfl (by decide)
    (Or.inr ⟨"asha".toList, "examplecom".toList, rfl, by decide⟩)

/-- C3.  When studentName, phone, email, area or learningGoal is missing or empty, the
handler answers with the redirect `/contact?error=Please fill in all required fields`,
which is not the success redirect, and leaves the world as it was. -/
theorem missing_required_field_rejected (env : Env) (b : Body) (w : World)
    (h : isMissingOrEmpty b.studentName = true ∨ isMissingOrEmpty b.phone = true ∨
      isMissingOrEmpty b.email = true ∨ isMissingOrEmpty b.area = true ∨
      isMissingOrEmpty b.learningGoal = true) :
    handleContactForm env b w = (.redirect requiredFieldsUrl, w) ∧
      (handleContactForm env b w).1 ≠ .redirect successUrl := by
  have hv : validation b = .ok (some (.redirect requiredFieldsUrl)) := by
    apply validation_of_falsy
    rcases h with h | h | h | h | h
    · exact Or.inl (truthy_of_isMissingOrEmpty h)
    · exact Or.inr (Or.inl (truthy_of_isMissingOrEmpty h))
    · exact Or.inr (Or.inr (Or.inl (truthy_of_isMissingOrEmpty h)))
    · exact Or.inr (Or.inr (Or.inr (Or.inl (truthy_of_isMissingOrEmpty h))))
    · exact Or.inr (Or.inr (Or.inr (Or.inr (truthy_of_isMissingOrEmpty h))))
  rw [handleContactForm_of_rejected env b w _ hv]
  refine ⟨rfl, ?_⟩
  show Response.redirect requiredFieldsUrl ≠ .redirect successUrl
  decide

/-- Witness of `missing_required_field_rejected`: the end-to-end example without its
area. -/
theorem missing_required_field_rejected_witness :
    handleContactForm workingEnv ({ ashaRao with area := none } : Submission).toBody emptyWorld
        = (.redirect requiredFieldsUrl, emptyWorld) ∧
      (handleContactForm workingEnv ({ ashaRao with area := none } : Submission).toBody emptyWorld).1
        ≠ .redirect successUrl :=
  missing_required_field_rejected workingEnv ({ ashaRao with area := none } : Submission).toBody emptyWorld
    (Or.inr (Or.inr (Or.inr (Or.inl rfl))))

theorem filter_length_pos_iff (xs : List JSValue) :
    ((xs.filter fun subject => !includesSubject subject).length > 0) ↔
      ¬ (xs.all includesSubject = true) := by
  rw [gt_iff_lt, List.length_pos, ne_eq, List.filter_eq_nil_iff]
  simp

theorem invalidSubjects_verdict (xs : List JSValue) (a b : Except String Bool) :
    (if (xs.filter fun subject => !includesSubject subject).length > 0 then a else b) =
      if xs.all includesSubject = true then b else a := by
  by_cases h : xs.all includesSubject = true
  · rw [if_neg (fun hpos => (filter_length_pos_iff xs).mp hpos h), if_pos h]
  · rw [if_pos ((filter_length_pos_iff xs).mpr h), if_neg h]

theorem subjectsValidator_eq (v : JSValue) :
    subjectsValidator v =
      if (resolvedSubjects v).isEmpty then .error "Please select at least one tech subject"
      else if (resolvedSubjects v).all includesSubject then .ok true
      else .error "Invalid subject selection" := by
  unfold subjectsValidator
  cases v with
  | arr xs =>
    cases xs with
    | nil => rfl
    | cons x xs =>
      simp only [JSValue.truthy, resolvedSubjects, selectedSubjects, invalidSubjects_verdict]
      simp
  | str s =>
    cases s with
    | nil => rfl
    | cons c cs =>
      simp only [JSValue.truthy, resolvedSubjects, selectedSubjects, invalidSubjects_verdict]
      simp
  | bool b =>
    cases b with
    | false => rfl
    | true =>
      simp only [JSValue.truthy, resolvedSubjects, selectedSubjects, invalidSubjects_verdict]
      simp
  | number n =>
    by_cases hn : n = 0
    · subst hn
      rfl
    · simp only [JSValue.truthy, resolvedSubjects, selectedSubjects, invalidSubjects_verdict]
      simp [hn]
  | undefined => rfl
  | null => rfl
  | object =>
    simp only [JSValue.truthy, resolvedSubjects, selectedSubjects, invalidSubjects_verdict]
    simp

theorem includesSubject_iff (x : JSValue) :
    includesSubject x = true ↔ ∃ t ∈ validSubjects, x = .str t := by
  cases x <;> simp [includesSubject]

/-- C4.  The subjects rule accepts a value exactly when it resolves to a non-empty
collection of whitelisted subjects; a missing or empty value and an empty array fail
with `Please select at least one tech subject`; any other value with an element
outside the whitelist fails with `Invalid subject selection` (so do `COBOL` alone and
`COBOL` among valid subjects); a whitelisted string and a non-empty array of
whitelisted strings pass. -/
theorem subjectsValidator_spec (v : JSValue) :
    (subjectsValidator v = .ok true ↔
        resolvedSubjects v ≠ [] ∧ ∀ x ∈ resolvedSubjects v, ∃ t ∈ validSubjects, x = .str t) ∧
      (resolvedSubjects v = [] →
        subjectsValidator v = .error "Please select at least one tech subject") ∧
      ((∃ x ∈ resolvedSubjects v, ¬ ∃ t ∈ validSubjects, x = .str t) →
        subjectsValidator v = .error "Invalid subject selection") ∧
      (∀ t ∈ validSubjects, subjectsValidator (.str t) = .ok true) ∧
      (∀ ts : List JSString, ts ≠ [] → (∀ t ∈ ts, t ∈ validSubjects) →
        subjectsValidator (.arr (ts.map .str)) = .ok true) ∧
      subjectsValidator .undefined = .error "Please select at least one tech subject" ∧
      subjectsValidator (.str []) = .error "Please select at least one tech subject" ∧
      subjectsValidator (.arr []) = .error "Please select at least one tech subject" ∧
      subjectsValidator (.str "COBOL".toList) = .error "Invalid subject selection" ∧
      subjectsValidator (.arr [.str "Python".toList, .str "COBOL".toList, .str "Java".toList])
        = .error "Invalid subject selection" := by
  have hall : ∀ xs : List JSValue, xs.all includesSubject = true ↔
      ∀ x ∈ xs, ∃ t ∈ validSubjects, x = .str t := by
    intro xs
    simp only [List.all_eq_true, includesSubject_iff]
  refine ⟨?_, ?_, ?_, ?_, ?_, rfl, rfl, rfl, rfl, rfl⟩
  · rw [subjectsValidator_eq v, ← hall]
    cases hnil : (resolvedSubjects v).isEmpty with
    | true => simp [List.isEmpty_iff.mp hnil]
    | false =>
      have hne : resolvedSubjects v ≠ [] := by
        intro h
        rw [h] at hnil
        exact absurd hnil (by decide)
      by_cases hok : (resolvedSubjects v).all includesSubject = true
      · simp [hok, hne]
      · simp [hok, hne]
  · intro hnil
    rw [subjectsValidator_eq v, hnil]
    rfl
  · rintro ⟨x, hx, hbad⟩
    have hne : (resolvedSubjects v).isEmpty = false := by
      cases hr : resolvedSubjects v with
      | nil => rw [hr] at hx; cases hx
      | cons y ys => rfl
    have hnot : ¬ ((resolvedSubjects v).all includesSubject = true) := by
      rw [hall]
      exact fun h => hbad (h x hx)
    rw [subjectsValidator_eq v]
    simp [hne, hnot]
  · intro t ht
    have hne : t ≠ [] := by
      rintro rfl
      exact absurd ht (by decide)
    rw [subjectsValidator_eq]
    have hr : resolvedSubjects (.str t) = [.str t] := by
      cases t with
      | nil => exact absurd rfl hne
      | cons c cs => rfl
    have hin : includesSubject (.str t) = true := (includesSubject_iff _).mpr ⟨t, ht, rfl⟩
    simp [hr, hin]
  · intro ts hne hts
    rw [subjectsValidator_eq]
    have hr : resolvedSubjects (.arr (ts.map .str)) = ts.map .str := rfl
    have hin : (ts.map JSValue.str).all includesSubject = true := by
      rw [hall]
      intro x hx
      obtain ⟨t, ht, rfl⟩ := List.mem_map.mp hx
      exact ⟨t, hts t ht, rfl⟩
    have hemp : (ts.map JSValue.str).isEmpty = false := by
      cases ts with
      | nil => exact absurd rfl hne
      | cons t ts => rfl
    rw [hr, hemp, hin]
    rfl

/-! ## Submissions that pass the checks of the handler -/

theorem contactData_of_valid_submission (env : Env) (s : Submission)
    (hv : validation s.toBody = .ok none) :
    ∃ n p e, s.studentName = some n ∧ s.phone = some p ∧ s.email = some e ∧
      contactData env s.toBody = .ok (recordOf env s n p e) := by
  rcases s with ⟨sn, pn, ph, em, age, subj, goal, area, tg, st, bu, ex, msg⟩
  cases sn with
  | none =>
    have hf : validation
        (Submission.toBody ⟨none, pn, ph, em, age, subj, goal, area, tg, st, bu, ex, msg⟩) = _ :=
      validation_of_falsy _ (Or.inl rfl)
    rw [hf] at hv
    cases hv
  | some n =>
    cases ph with
    | none =>
      have hf : validation
          (Submission.toBody ⟨some n, pn, none, em, age, subj, goal, area, tg, st, bu, ex, msg⟩)
            = _ :=
        validation_of_falsy _ (Or.inr (Or.inl rfl))
      rw [hf] at hv
      cases hv
    | some p =>
      cases em with
      | none =>
        have hf : validation
            (Submission.toBody
              ⟨some n, pn, some p, none, age, subj, goal, area, tg, st, bu, ex, msg⟩) = _ :=
          validation_of_falsy _ (Or.inr (Or.inr (Or.inl rfl)))
        rw [hf] at hv
        cases hv
      | some e =>
        refine ⟨n, p, e, rfl, rfl, rfl, ?_⟩
        rcases pn with _ | (_ | ⟨c, cs⟩) <;> rcases msg with _ | (_ | ⟨d, ds⟩) <;> rfl

theorem validation_some_cases (b : Body) (r : Response) (h : validation b = .ok (some r)) :
    r = .redirect requiredFieldsUrl ∨ r = .redirect invalidEmailUrl ∨
      r = .redirect invalidPhoneUrl ∨ r = .redirect noSubjectUrl := by
  unfold validation at h
  split at h
  · cases h
    exact Or.inl rfl
  · split at h
    · cases h
      exact Or.inr (Or.inl rfl)
    · split at h
      · cases h
      · split at h
        · cases h
          exact Or.inr (Or.inr (Or.inl rfl))
        · split at h
          · cases h
            exact Or.inr (Or.inr (Or.inr rfl))
          · cases h

theorem sendConfirmationEmail_console (env : Env) (data : ContactData) (w : World) :
    ∃ t, (sendConfirmationEmail env data w).2.console = w.console ++ t := by
  unfold sendConfirmationEmail sendConfirmationEmailTry createTransporter sendMail
  by_cases hc : env.createTransporterReturns w.mail (transportConfig env) = true
  · by_cases hs : env.sendMailResolves (w.mail ++ [.createTransporter (transportConfig env)])
        (confirmationMailOptions env data) = true
    · exact ⟨[.confirmationSent data.email], by simp [hc, hs]⟩
    · exact ⟨[.errorSendingConfirmation .transportError], by simp [hc, hs]⟩
  · exact ⟨[.errorSendingConfirmation .transportError], by simp [hc]⟩

theorem sendAdminNotification_console (env : Env) (data : ContactData) (w : World) :
    ∃ t, (sendAdminNotification env data w).2.console = w.console ++ t := by
  unfold sendAdminNotification sendAdminNotificationTry createTransporter sendMail
  by_cases hc : env.createTransporterReturns w.mail (transportConfig env) = true
  · by_cases hs : env.sendMailResolves (w.mail ++ [.createTransporter (transportConfig env)])
        (adminMailOptions env) = true
    · exact ⟨[.adminNotificationSent], by simp [hc, hs]⟩
    · exact ⟨[.errorSendingAdminNotification .transportError], by simp [hc, hs]⟩
  · exact ⟨[.errorSendingAdminNotification .transportError], by simp [hc]⟩

theorem handleContactForm_console_of_built (env : Env) (b : Body) (w : World)
    (data : ContactData) (hv : validation b = .ok none) (hd : contactData env b = .ok data) :
    ∃ rest, (handleContactForm env b w).2.console = w.console ++ .newSubmission data :: rest := by
  rw [handleContactForm_of_built env b w data hv hd]
  obtain ⟨t1, h1⟩ := sendConfirmationEmail_console env data
    { w with console := w.console ++ [.newSubmission data] }
  obtain ⟨t2, h2⟩ := sendAdminNotification_console env data
    (sendConfirmationEmail env data { w with console := w.console ++ [.newSubmission data] }).2
  refine ⟨t1 ++ t2, ?_⟩
  show (sendAdminNotification env data _).2.console = _
  rw [h2, h1]
  simp

theorem validation_of_accepted (env : Env) (b : Body) (w : World)
    (hacc : (handleContactForm env b w).1 = .redirect successUrl) :
    validation b = .ok none ∧ ∃ data, contactData env b = .ok data := by
  cases hv : validation b with
  | error e =>
    rw [handleContactForm_of_raised env b w e (Or.inl hv)] at hacc
    dsimp only at hacc
    exact absurd hacc (by decide)
  | ok o =>
    cases o with
    | some r =>
      rw [handleContactForm_of_rejected env b w r hv] at hacc
      dsimp only at hacc
      rcases validation_some_cases b r hv with h | h | h | h <;>
        exact absurd (h ▸ hacc) (by decide)
    | none =>
      refine ⟨rfl, ?_⟩
      cases hd : contactData env b with
      | error e =>
        rw [handleContactForm_of_raised env b w e (Or.inr ⟨hv, hd⟩)] at hacc
        dsimp only at hacc
        exact absurd hacc (by decide)
      | ok data => exact ⟨data, rfl⟩

/-- C5.  For an accepted submission the handler builds and logs a record whose
subjects field is a list: the one-element list of the string when a single string was
submitted, the submitted list itself, element by element in the same order, when a
list was submitted. -/
theorem subjects_of_accepted_submission (env : Env) (s : Submission) (w : World)
    (hacc : (handleContactForm env s.toBody w).1 = .redirect successUrl) :
    ∃ data rest, contactData env s.toBody = .ok data ∧
      (handleContactForm env s.toBody w).2.console = w.console ++ .newSubmission data :: rest ∧
      (∀ x, s.subjects = .single x → data.subjects = [.str x]) ∧
      (∀ xs, s.subjects = .many xs → data.subjects = xs.map .str) := by
  obtain ⟨hv, _⟩ := validation_of_accepted env s.toBody w hacc
  obtain ⟨n, p, e, _, _, _, hd⟩ := contactData_of_valid_submission env s hv
  obtain ⟨rest, hrest⟩ := handleContactForm_console_of_built env s.toBody w _ hv hd
  refine ⟨_, rest, hd, hrest, ?_, ?_⟩
  · intro x hx
    simp [recordOf, hx, SubjectsField.toValue, selectedSubjects]
  · intro xs hxs
    simp [recordOf, hxs, SubjectsField.toValue, selectedSubjects]

/-- Witness of `subjects_of_accepted_submission`: the end-to-end example, whose
subjects are the list with the one entry `Python`. -/
theorem subjects_of_accepted_submission_witness :
    (handleContactForm workingEnv ashaRao.toBody emptyWorld).1 = .redirect successUrl ∧
      ∃ data rest, contactData workingEnv ashaRao.toBody = .ok data ∧
        (handleContactForm workingEnv ashaRao.toBody emptyWorld).2.console
          = emptyWorld.console ++ .newSubmission data :: rest ∧
        (∀ x, ashaRao.subjects = .single x → data.subjects = [.str x]) ∧
        (∀ xs, ashaRao.subjects = .many xs → data.subjects = xs.map .str) :=
  ⟨rfl, subjects_of_accepted_submission workingEnv ashaRao emptyWorld rfl⟩

/-- C6 fails for an absent subjects field: the end-to-end example sent without any
subject passes the subject check, since `[undefined]` has length 1; the handler builds
a record whose subjects are `[undefined]`, calls the mail transport four times and
answers with the success redirect. -/
theorem absent_subjects_pass_subject_check :
    validation ({ ashaRao with subjects := .absent } : Submission).toBody = .ok none ∧
      (∃ data,
        contactData workingEnv ({ ashaRao with subjects := .absent } : Submission).toBody
          = .ok data ∧ data.subjects = [.undefined]) ∧
      (handleContactForm workingEnv
        ({ ashaRao with subjects := .absent } : Submission).toBody emptyWorld).1
        = .redirect successUrl ∧
      (handleContactForm workingEnv
        ({ ashaRao with subjects := .absent } : Submission).toBody emptyWorld).2.mail
        = [.createTransporter (transportConfig workingEnv),
            .sendMail
              { from_ := some "info@experttechtutor.com".toList
                to_ := some "asha@example.com".toList
                subject := "✅ Request Received - Expert Tech Tutors Hyderabad" },
            .createTransporter (transportConfig workingEnv),
            .sendMail
              { from_ := some "info@experttechtutor.com".toList
                to_ := some "admin@experttechtutor.com".toList
                subject := "🚨 New Tech Tutor Request - Expert Tech Tutors Hyderabad" }] :=
  ⟨rfl, ⟨_, rfl, rfl⟩, rfl, rfl⟩

/-- C7.  For a submission that passes the checks of the handler, whatever the mail
transport does at each call (return or raise), neither `sendConfirmationEmail` nor
`sendAdminNotification` raises, and the handler answers with the success redirect,
which is not the generic error redirect. -/
theorem notification_failure_isolated (env : Env) (s : Submission) (w : World)
    (hv : validation s.toBody = .ok none) :
    (∀ data w0, (sendConfirmationEmail env data w0).1 = .ok ()) ∧
      (∀ data w0, (sendAdminNotification env data w0).1 = .ok ()) ∧
      (handleContactForm env s.toBody w).1 = .redirect successUrl ∧
      (handleContactForm env s.toBody w).1 ≠ .redirect somethingWentWrongUrl := by
  obtain ⟨n, p, e, _, _, _, hd⟩ := contactData_of_valid_submission env s hv
  have hr : (handleContactForm env s.toBody w).1 = .redirect successUrl := by
    rw [handleContactForm_of_built env s.toBody w _ hv hd]
  refine ⟨sendConfirmationEmail_fst env, sendAdminNotification_fst env, hr, ?_⟩
  rw [hr]
  decide

/-- Witness of `notification_failure_isolated`: the end-to-end example, with a mail
transport that raises at every call. -/
theorem notification_failure_isolated_witness :
    (∀ h c, failingEnv.createTransporterReturns h c = false) ∧
      (∀ h o, failingEnv.sendMailResolves h o = false) ∧
      (∀ data w0, (sendConfirmationEmail failingEnv data w0).1 = .ok ()) ∧
      (∀ data w0, (sendAdminNotification failingEnv data w0).1 = .ok ()) ∧
      (handleContactForm failingEnv ashaRao.toBody emptyWorld).1 = .redirect successUrl ∧
      (handleContactForm failingEnv ashaRao.toBody emptyWorld).1
        ≠ .redirect somethingWentWrongUrl :=
  ⟨fun _ _ => rfl, fun _ _ => rfl,
    notification_failure_isolated failingEnv ashaRao emptyWorld rfl⟩

/-- C8.  When the handler does not answer with the success redirect, it has made no
call to the mail transport, and its answer is one of its error redirects: missing
required field, malformed email, invalid phone, no subject, or the generic one. -/
theorem rejected_submission_sends_nothing (env : Env) (b : Body) (w : World)
    (hrej : (handleContactForm env b w).1 ≠ .redirect successUrl) :
    (handleContactForm env b w).2.mail = w.mail ∧
      (handleContactForm env b w).1 ∈
        [Response.redirect requiredFieldsUrl, .redirect invalidEmailUrl,
          .redirect invalidPhoneUrl, .redirect noSubjectUrl,
          .redirect somethingWentWrongUrl] := by
  cases hv : validation b with
  | error e =>
    rw [handleContactForm_of_raised env b w e (Or.inl hv)]
    simp
  | ok o =>
    cases o with
    | some r =>
      rw [handleContactForm_of_rejected env b w r hv]
      rcases validation_some_cases b r hv with h | h | h | h <;> simp [h]
    | none =>
      cases hd : contactData env b with
      | error e =>
        rw [handleContactForm_of_raised env b w e (Or.inr ⟨hv, hd⟩)]
        simp
      | ok data =>
        rw [handleContactForm_of_built env b w data hv hd] at hrej
        exact absurd rfl hrej

/-- Witness of `rejected_submission_sends_nothing`: the end-to-end example with the
phone `12345`. -/
theorem rejected_submission_sends_nothing_witness :
    (handleContactForm workingEnv
        ({ ashaRao with phone := some "12345".toList } : Submission).toBody emptyWorld).1
      = .redirect invalidPhoneUrl ∧
    (handleContactForm workingEnv
        ({ ashaRao with phone := some "12345".toList } : Submission).toBody emptyWorld).2.mail
      = emptyWorld.mail ∧
    (handleContactForm workingEnv
        ({ ashaRao with phone := some "12345".toList } : Submission).toBody emptyWorld).1 ∈
      [Response.redirect requiredFieldsUrl, .redirect invalidEmailUrl,
        .redirect invalidPhoneUrl, .redirect noSubjectUrl,
        .redirect somethingWentWrongUrl] :=
  ⟨rfl, rejected_submission_sends_nothing workingEnv
    ({ ashaRao with phone := some "12345".toList } : Submission).toBody emptyWorld
    (by decide)⟩

/-- Calls that the handler makes to the mail transport for a submission that passes its
checks: those of the confirmation, then those of the admin notification; four calls,
two of them `sendMail`, when every creation of a transporter returns. -/
theorem mail_calls_of_valid_submission (env : Env) (s : Submission) (w : World)
    (hv : validation s.toBody = .ok none) :
    ∃ data e, contactData env s.toBody = .ok data ∧ s.email = some e ∧
      (confirmationMailOptions env data).to_ = some (trim (env.toLowerCase e)) ∧
      (adminMailOptions env).to_ = envOr env.ADMIN_EMAIL env.EMAIL_USER ∧
      envOr none env.EMAIL_USER = env.EMAIL_USER ∧
      (handleContactForm env s.toBody w).1 = .redirect successUrl ∧
      (handleContactForm env s.toBody w).2.mail =
        (w.mail ++ notificationCalls env w.mail (confirmationMailOptions env data)) ++
          notificationCalls env
            (w.mail ++ notificationCalls env w.mail (confirmationMailOptions env data))
            (adminMailOptions env) ∧
      ((∀ before config, env.createTransporterReturns before config = true) →
        (handleContactForm env s.toBody w).2.mail =
          w.mail ++ [.createTransporter (transportConfig env),
            .sendMail (confirmationMailOptions env data),
            .createTransporter (transportConfig env),
            .sendMail (adminMailOptions env)]) := by
  obtain ⟨n, p, e, _, _, he, hd⟩ := contactData_of_valid_submission env s hv
  have hmail : (handleContactForm env s.toBody w).2.mail =
      (w.mail ++ notificationCalls env w.mail (confirmationMailOptions env (recordOf env s n p e)))
        ++ notificationCalls env
          (w.mail ++ notificationCalls env w.mail
            (confirmationMailOptions env (recordOf env s n p e)))
          (adminMailOptions env) := by
    rw [handleContactForm_of_built env s.toBody w _ hv hd]
    show (sendAdminNotification env _ _).2.mail = _
    rw [sendAdminNotification_mail, sendConfirmationEmail_mail]
  refine ⟨_, e, hd, he, rfl, rfl, rfl, ?_, hmail, ?_⟩
  · rw [handleContactForm_of_built env s.toBody w _ hv hd]
  · intro hall
    rw [hmail]
    simp [notificationCalls, hall]

/-- C9 fails on the end-to-end example with the nodemailer package as it is: the wrapper
calls `nodemailer.createTransporter`, which the package does not export, so each of the
two creations raises, the `catch` blocks swallow the error, and no `sendMail` call is
made, to the lead or to the admin, before the success redirect.  The same holds for
every submission that passes the checks whenever the creations raise. -/
theorem no_sendMail_without_createTransporter :
    validation ashaRao.toBody = .ok none ∧
      (handleContactForm nodemailerEnv ashaRao.toBody emptyWorld).1 = .redirect successUrl ∧
      (handleContactForm nodemailerEnv ashaRao.toBody emptyWorld).2.mail
        = [.createTransporter (transportConfig nodemailerEnv),
            .createTransporter (transportConfig nodemailerEnv)] ∧
      (∀ mailOptions, MailCall.sendMail mailOptions ∉
        (handleContactForm nodemailerEnv ashaRao.toBody emptyWorld).2.mail) ∧
      (∀ (env : Env) (s : Submission) (w : World), validation s.toBody = .ok none →
        (∀ before config, env.createTransporterReturns before config = false) →
        (handleContactForm env s.toBody w).2.mail =
          w.mail ++ [.createTransporter (transportConfig env),
            .createTransporter (transportConfig env)]) := by
  refine ⟨rfl, rfl, rfl, ?_, ?_⟩
  · intro mailOptions hmem
    have hmail : (handleContactForm nodemailerEnv ashaRao.toBody emptyWorld).2.mail
        = [.createTransporter (transportConfig nodemailerEnv),
            .createTransporter (transportConfig nodemailerEnv)] := rfl
    rw [hmail] at hmem
    simp at hmem
  · intro env s w hv hraise
    obtain ⟨data, e, _, _, _, _, _, _, hmail, _⟩ := mail_calls_of_valid_submission env s w hv
    rw [hmail]
    simp [notificationCalls, hraise]

/-! ## Enumerated fields of the record -/

theorem orElse_field_cases (f : Option JSString) (d : JSString) :
    ((f = none ∨ f = some []) ∧ (fieldValue f).orElse (.str d) = .str d) ∨
      ∃ x, f = some x ∧ x ≠ [] ∧ (fieldValue f).orElse (.str d) = .str x := by
  cases f with
  | none => exact Or.inl ⟨Or.inl rfl, rfl⟩
  | some x =>
    cases x with
    | nil => exact Or.inl ⟨Or.inr rfl, rfl⟩
    | cons c cs => exact Or.inr ⟨c :: cs, rfl, by simp, rfl⟩

theorem mem_of_optionalIsIn {values : List JSString} {f : Option JSString} {x : JSString}
    (h : optionalIsIn values f = true) (hx : f = some x) : x ∈ values := by
  subst hx
  simpa [optionalIsIn] using h

theorem defaulted_field_cases {values : List JSString} {f : Option JSString} (d : JSString)
    (h : optionalIsIn values f = true) :
    ∃ x, (fieldValue f).orElse (.str d) = .str x ∧ (x = d ∨ (x ∈ values ∧ x ≠ [])) := by
  rcases orElse_field_cases f d with ⟨_, hd⟩ | ⟨x, hx, hne, hd⟩
  · exact ⟨d, hd, Or.inl rfl⟩
  · exact ⟨x, hd, Or.inr ⟨mem_of_optionalIsIn h hx, hne⟩⟩

theorem required_field_of_isIn {values : List JSString} {f : Option JSString}
    (h : isIn values f = true) (hne : [] ∉ values) :
    ∃ x, fieldValue f = .str x ∧ x ∈ values := by
  cases f with
  | none =>
    have : ([] : JSString) ∈ values := by simpa [isIn] using h
    exact absurd this hne
  | some x => exact ⟨x, rfl, by simpa [isIn] using h⟩

/-! ## The `studentName` rule -/

theorem letterOrSpace_iff (c : Char) :
    letterOrSpace c = true ↔ (c.isAlpha = true ∨ isJSWhitespace c = true) := by
  have h : letterOrSpace c = (c.isLower || c.isUpper || isJSWhitespace c) := rfl
  rw [h]
  simp only [Char.isAlpha, Bool.or_eq_true]
  tauto

theorem not_isVariationSelector_of_letterOrSpace {c : Char} (h : letterOrSpace c = true) :
    isVariationSelector c = false := by
  by_contra hsel
  have hsel2 : isVariationSelector c = true := by simpa using hsel
  have hc : c = Char.ofNat c.toNat := (Char.ofNat_toNat c).symm
  simp only [isVariationSelector, Bool.or_eq_true, beq_iff_eq] at hsel2
  rcases hsel2 with h1 | h1 <;> rw [h1] at hc <;> rw [hc] at h <;> exact absurd h (by decide)

theorem validatorLength_eq_length {value : JSString}
    (h : ∀ c ∈ value, letterOrSpace c = true) : validatorLength value = value.length := by
  have hzero : value.countP isVariationSelector = 0 := by
    rw [List.countP_eq_zero]
    intro c hc
    simp [not_isVariationSelector_of_letterOrSpace (h c hc)]
  simp [validatorLength, hzero]

/-- C16 (as stated) fails in both directions.  A name with a tab between its words is
accepted, although the tab is not a space and, for every notion of letter that leaves
the tab out, the name is not made of letters and spaces only.  The name `José` is
refused, although for every notion of letter that has the letters `a`..`z`, `A`..`Z`
and `é` it is made of four letters. -/
theorem studentName_tab_accepted_accent_refused :
    studentNameErrors (some tabbedName) = [] ∧
      (∀ isLetter : Char → Bool, isLetter (Char.ofNat 9) = false →
        ¬ isLettersAndSpaces2to50 isLetter (trim tabbedName)) ∧
      studentNameErrors (some "José".toList) ≠ [] ∧
      (∀ isLetter : Char → Bool, (∀ c : Char, c.isAlpha = true → isLetter c = true) →
        isLetter 'é' = true → isLettersAndSpaces2to50 isLetter (trim "José".toList)) := by
  refine ⟨by decide, ?_, by decide, ?_⟩
  · intro isLetter htab hspec
    have hmem : Char.ofNat 9 ∈ trim tabbedName := by decide
    rcases hspec.2.2 _ hmem with h | h
    · rw [htab] at h
      exact absurd h (by decide)
    · exact absurd h (by decide)
  · intro isLetter hascii haccent
    have htrim : trim "José".toList = ['J', 'o', 's', 'é'] := by decide
    rw [htrim]
    refine ⟨by decide, by decide, ?_⟩
    intro c hc
    simp only [List.mem_cons, List.mem_singleton, List.not_mem_nil, or_false] at hc
    rcases hc with rfl | rfl | rfl | rfl
    · exact Or.inl (hascii _ (by decide))
    · exact Or.inl (hascii _ (by decide))
    · exact Or.inl (hascii _ (by decide))
    · exact Or.inl haccent

/-- C16 (amended).  The studentName rule reports no error exactly when the value,
trimmed, has 2 to 50 characters, each of them one of the letters `a`..`z`, `A`..`Z` or a
whitespace character; a missing and an empty studentName are rejected. -/
theorem studentNameErrors_eq_nil_iff (field : Option JSString) :
    (studentNameErrors field = [] ↔
        isAsciiLettersAndWhitespace2to50 (trim (field.getD []))) ∧
      studentNameErrors none ≠ [] ∧ studentNameErrors (some []) ≠ [] := by
  refine ⟨?_, by decide, by decide⟩
  unfold studentNameErrors isAsciiLettersAndWhitespace2to50
  have hre : studentNameRegex.test (trim (field.getD [])) = true ↔
      trim (field.getD []) ≠ [] ∧
        ∀ c ∈ trim (field.getD []), letterOrSpace c = true := by
    rw [Regex.test_iff]
    unfold studentNameRegex
    rw [Regex.matches_plus_cls_iff]
  constructor
  · intro h
    obtain ⟨h1, h2⟩ := List.append_eq_nil.mp h
    have htest : studentNameRegex.test (trim (field.getD [])) = true := by
      by_contra hc
      simp [hc] at h2
    have hall := (hre.mp htest).2
    have hlen : 2 ≤ validatorLength (trim (field.getD [])) ∧
        validatorLength (trim (field.getD [])) ≤ 50 := by
      by_contra hc
      simp [hc] at h1
    rw [validatorLength_eq_length hall] at hlen
    exact ⟨hlen.1, hlen.2, fun c hc => (letterOrSpace_iff c).mp (hall c hc)⟩
  · rintro ⟨hmin, hmax, hall⟩
    have hall2 : ∀ c ∈ trim (field.getD []), letterOrSpace c = true :=
      fun c hc => (letterOrSpace_iff c).mpr (hall c hc)
    have hne : trim (field.getD []) ≠ [] := by
      intro h0
      rw [h0] at hmin
      simp at hmin
    have htest : studentNameRegex.test (trim (field.getD [])) = true := hre.mpr ⟨hne, hall2⟩
    simp [validatorLength_eq_length hall2, hmin, hmax, htest]

/-! ## Reference data and whitelists -/

/-- C20 fails for the subjects: no entry served by `GET /contact/subjects` has its id or
its name in the whitelist of the validator (`python` and `Python Programming` are not
`Python`), so a subject picked from the reference list is rejected with
`Invalid subject selection`; the names served by `GET /contact/areas` are all in the
whitelist of areas. -/
theorem reference_subjects_outside_whitelist :
    (∀ entry ∈ subjectsReference,
        entry.id.toList ∉ validSubjects ∧ entry.name.toList ∉ validSubjects) ∧
      (∀ entry ∈ subjectsReference,
        subjectsValidator (.str entry.id.toList) = .error "Invalid subject selection" ∧
        subjectsValidator (.str entry.name.toList) = .error "Invalid subject selection") ∧
      (∀ entry ∈ areasReference, entry.name.toList ∈ validAreas) := by
  refine ⟨by decide, ?_, by decide⟩
  intro entry hentry
  simp only [subjectsReference, List.mem_cons, List.mem_singleton, List.not_mem_nil,
    or_false] at hentry
  rcases hentry with h | h | h | h | h | h | h | h | h | h | h | h <;> subst h <;>
    exact ⟨rfl, rfl⟩

/-! ## Normalising twice -/

theorem not_head_of_dropWhile_eq_self {p : Char → Bool} {a : Char} {l : JSString}
    (h : (a :: l).dropWhile p = a :: l) : ¬ p a = true := by
  intro hp
  rw [List.dropWhile_cons_of_pos hp] at h
  have hlen := (List.dropWhile_suffix p (l := l)).length_le
  rw [h] at hlen
  simp at hlen

theorem dropWhile_rdropWhile_of_eq_self {p : Char → Bool} {l : JSString}
    (h : l.dropWhile p = l) : (l.rdropWhile p).dropWhile p = l.rdropWhile p := by
  obtain ⟨t, ht⟩ := List.rdropWhile_prefix p (l := l)
  cases hr : l.rdropWhile p with
  | nil => rfl
  | cons a r =>
    rw [hr] at ht
    rw [← ht] at h
    exact List.dropWhile_cons_of_neg (not_head_of_dropWhile_eq_self h)

theorem trim_eq_rdropWhile (s : JSString) :
    trim s = (s.dropWhile isJSWhitespace).rdropWhile isJSWhitespace := rfl

theorem trim_trim (s : JSString) : trim (trim s) = trim s := by
  rw [trim_eq_rdropWhile (trim s), trim_eq_rdropWhile s,
    dropWhile_rdropWhile_of_eq_self (List.dropWhile_idempotent _ _), List.rdropWhile_idempotent]

theorem removeWhitespace_removeWhitespace (s : JSString) :
    removeWhitespace (removeWhitespace s) = removeWhitespace s := by
  simp [removeWhitespace]

theorem orElse_orElse (v d : JSValue) (hd : d.truthy = true) :
    (v.orElse d).orElse d = v.orElse d := by
  unfold JSValue.orElse
  by_cases hv : v.truthy = true
  · simp [hv]
  · simp [hv, hd]

theorem contactData_of_text_fields (env : Env) (b : Body) (n pn p e m : JSString)
    (h1 : b.studentName = .str n) (h2 : b.parentName = .str pn) (h3 : b.phone = .str p)
    (h4 : b.email = .str e) (h5 : b.message = .str m) :
    contactData env b = .ok
      { studentName := trim n
        parentName := trim pn
        phone := removeWhitespace p
        email := trim (env.toLowerCase e)
        age := b.age.orElse (.str "Not specified".toList)
        subjects := selectedSubjects b.subjects
        learningGoal := b.learningGoal
        area := b.area
        tutorGender := b.tutorGender.orElse (.str "No preference".toList)
        sessionType := b.sessionType.orElse (.str "home".toList)
        budget := b.budget.orElse (.str "Not specified".toList)
        experience := b.experience.orElse (.str "complete-beginner".toList)
        message := trim m
        submittedAt := env.now
        status := "new".toList } := by
  rcases b with ⟨sn, bpn, ph, em, age, subj, goal, area, tg, st, bu, ex, msg⟩
  simp only at h1 h2 h3 h4 h5
  subst h1 h2 h3 h4 h5
  rcases pn with _ | ⟨c, cs⟩ <;> rcases m with _ | ⟨d, ds⟩ <;> rfl

theorem optional_trim_trim (f : Option JSString) :
    trim ((f.map trim).getD []) = (f.map trim).getD [] := by
  cases f with
  | none => rfl
  | some x => exact trim_trim x

theorem contactData_recordOf (env env2 : Env) (s : Submission) (n p e : JSString)
    (hlow : env2.toLowerCase = env.toLowerCase)
    (hidem : ∀ x, env.toLowerCase (env.toLowerCase x) = env.toLowerCase x)
    (hcomm : ∀ x, env.toLowerCase (trim x) = trim (env.toLowerCase x)) :
    contactData env2 (recordOf env s n p e).toBody
      = .ok { recordOf env s n p e with submittedAt := env2.now } := by
  rw [contactData_of_text_fields env2 (recordOf env s n p e).toBody (trim n)
    ((s.parentName.map trim).getD []) (removeWhitespace p) (trim (env.toLowerCase e))
    ((s.message.map trim).getD []) rfl rfl rfl rfl rfl]
  simp only [recordOf, ContactData.toBody, trim_trim, removeWhitespace_removeWhitespace,
    optional_trim_trim, hlow, hcomm, hidem]
  rw [orElse_orElse _ (.str "Not specified".toList) rfl,
    orElse_orElse _ (.str "Not specified".toList) rfl,
    orElse_orElse _ (.str "No preference".toList) rfl,
    orElse_orElse _ (.str "home".toList) rfl,
    orElse_orElse _ (.str "complete-beginner".toList) rfl]
  rfl

theorem isJSWhitespace_toLower (c : Char) : isJSWhitespace c.toLower = isJSWhitespace c := by
  by_cases h : c.toNat ≥ 65 ∧ c.toNat ≤ 90
  · have hc : c = Char.ofNat c.toNat := (Char.ofNat_toNat c).symm
    obtain ⟨h1, h2⟩ := h
    generalize c.toNat = k at hc h1 h2
    subst hc
    interval_cases k <;> decide
  · have : c.toLower = c := by
      unfold Char.toLower
      simp only [h, if_false]
    rw [this]

theorem toLower_toLower (c : Char) : c.toLower.toLower = c.toLower := by
  by_cases h : c.toNat ≥ 65 ∧ c.toNat ≤ 90
  · have hc : c = Char.ofNat c.toNat := (Char.ofNat_toNat c).symm
    obtain ⟨h1, h2⟩ := h
    generalize c.toNat = k at hc h1 h2
    subst hc
    interval_cases k <;> decide
  · have : c.toLower = c := by
      unfold Char.toLower
      simp only [h, if_false]
    rw [this, this]

theorem asciiToLowerCase_idem (x : JSString) :
    asciiToLowerCase (asciiToLowerCase x) = asciiToLowerCase x := by
  simp [asciiToLowerCase, toLower_toLower]

theorem asciiToLowerCase_trim (x : JSString) :
    asciiToLowerCase (trim x) = trim (asciiToLowerCase x) := by
  have hp : (isJSWhitespace ∘ Char.toLower) = isJSWhitespace := by
    funext c
    exact isJSWhitespace_toLower c
  simp only [asciiToLowerCase, trim, List.dropWhile_map, ← List.map_reverse, hp]

/-- C12.  For a submission that passes the checks of the handler, building the record
again from the record itself gives the same record on every field but submittedAt,
which is the time of the second run.  Here `toLowerCase` is any function that is
idempotent and commutes with `trim`, as that of the runtime is. -/
theorem normalisation_idempotent (env env2 : Env) (s : Submission)
    (hv : validation s.toBody = .ok none)
    (hlow : env2.toLowerCase = env.toLowerCase)
    (hidem : ∀ x, env.toLowerCase (env.toLowerCase x) = env.toLowerCase x)
    (hcomm : ∀ x, env.toLowerCase (trim x) = trim (env.toLowerCase x)) :
    ∃ data, contactData env s.toBody = .ok data ∧
      contactData env2 data.toBody = .ok { data with submittedAt := env2.now } := by
  obtain ⟨n, p, e, _, _, _, hd⟩ := contactData_of_valid_submission env s hv
  exact ⟨_, hd, contactData_recordOf env env2 s n p e hlow hidem hcomm⟩

/-- Witness of `normalisation_idempotent`: the end-to-end example, normalised a second
time at a later time. -/
theorem normalisation_idempotent_witness :
    ∃ data, contactData workingEnv ashaRao.toBody = .ok data ∧
      contactData { workingEnv with now := 900 } data.toBody
        = .ok { data with submittedAt := ({ workingEnv with now := 900 } : Env).now } :=
  normalisation_idempotent workingEnv { workingEnv with now := 900 } ashaRao rfl rfl
    asciiToLowerCase_idem asciiToLowerCase_trim

/-! ## The form route and the API route -/

/-- C13.  In the form flow, a non-empty list of validation errors is answered with the
redirect to `/contact?error=` followed by the URI-encoding of the messages, in their
order, joined with `". "`, and the handler does not run; with an empty list the request
is handled by `handleContactForm`. -/
theorem contactFormRoute_spec (env : Env) (errors : List ValidationError) (body : Body)
    (w : World) :
    (errors ≠ [] →
        contactFormRoute env errors body w =
          (.redirect ("/contact?error=" ++
            String.mk (encodeURIComponent (". ".toList.intercalate (errors.map (·.msg))))), w)) ∧
      (errors = [] → formValidationMiddleware errors = none ∧
        contactFormRoute env errors body w = handleContactForm env body w) := by
  constructor
  · intro hne
    cases errors with
    | nil => exact absurd rfl hne
    | cons e es => rfl
  · rintro rfl
    exact ⟨rfl, rfl⟩

set_option maxRecDepth 10000 in
/-- Witness of `contactFormRoute_spec`: two errors, whose messages are joined with
`". "` and percent-encoded; and no error on the end-to-end example. -/
theorem contactFormRoute_spec_witness :
    contactFormRoute workingEnv
        [⟨"phone".toList, "Please enter a valid Indian mobile number".toList⟩,
          ⟨"subjects".toList, "Invalid subject selection".toList⟩]
        ashaRao.toBody emptyWorld
      = (.redirect
          "/contact?error=Please%20enter%20a%20valid%20Indian%20mobile%20number.%20Invalid%20subject%20selection",
          emptyWorld) ∧
      contactFormRoute workingEnv [] ashaRao.toBody emptyWorld
        = handleContactForm workingEnv ashaRao.toBody emptyWorld :=
  ⟨(contactFormRoute_spec workingEnv
      [⟨"phone".toList, "Please enter a valid Indian mobile number".toList⟩,
        ⟨"subjects".toList, "Invalid subject selection".toList⟩]
      ashaRao.toBody emptyWorld).1 (by decide),
    ((contactFormRoute_spec workingEnv [] ashaRao.toBody emptyWorld).2 rfl).2⟩

theorem apiSubmitHandler_sent (env : Env) (body : Body) (w : World) :
    (apiSubmitHandler env body w).2.1.sent = some (handleContactForm env body w).1.toReply ∧
      (apiSubmitHandler env body w).1 = .error .headersSent := by
  unfold apiSubmitHandler
  rcases handleContactForm env body w with ⟨r, w1⟩
  exact ⟨rfl, rfl⟩

/-- C14 fails on the end-to-end example, which passes validation: on the API route the
reply delivered to the client is the redirect of `handleContactForm` to
`/contact?success=...`, not a JSON body; the two later calls of `res.json` find a reply
already sent and raise.  With a validation error the reply is the status 400 with the
list of errors, as claimed. -/
theorem api_route_delivers_redirect :
    validation ashaRao.toBody = .ok none ∧
      (contactApiRoute workingEnv [] ashaRao.toBody emptyWorld).1 = some (.redirect successUrl) ∧
      (∀ status apiBody,
        (contactApiRoute workingEnv [] ashaRao.toBody emptyWorld).1
          ≠ some (.json status apiBody)) ∧
      (apiSubmitHandler workingEnv ashaRao.toBody emptyWorld).1 = .error .headersSent ∧
      (∀ (env : Env) (body : Body) (w : World) (status : Nat) (apiBody : ApiBody),
        (contactApiRoute env [] body w).1 ≠ some (.json status apiBody)) ∧
      (∀ (env : Env) (errors : List ValidationError) (body : Body) (w : World), errors ≠ [] →
        contactApiRoute env errors body w = (some (.json 400 (.validationFailed errors)), w)) := by
  have hgen : ∀ (env : Env) (body : Body) (w : World) (status : Nat) (apiBody : ApiBody),
      (contactApiRoute env [] body w).1 ≠ some (.json status apiBody) := by
    intro env body w status apiBody
    have h := (apiSubmitHandler_sent env body w).1
    have hroute : (contactApiRoute env [] body w).1 = (apiSubmitHandler env body w).2.1.sent := rfl
    rw [hroute, h]
    cases (handleContactForm env body w).1 with
    | redirect url => simp [Response.toReply]
  refine ⟨rfl, by decide, hgen workingEnv ashaRao.toBody emptyWorld, rfl, hgen, ?_⟩
  intro env errors body w hne
  cases errors with
  | nil => exact absurd rfl hne
  | cons e es => rfl

/-! ## Requests on which processing raises -/

theorem handleContactFormTry_error_cases (env : Env) (b : Body) (w : World) (e : JSError)
    (h : (handleContactFormTry env b w).1 = .error e) :
    validation b = .error e ∨ (validation b = .ok none ∧ contactData env b = .error e) := by
  unfold handleContactFormTry at h
  cases hv : validation b with
  | error e1 =>
    rw [hv] at h
    simp only [Except.error.injEq] at h
    exact Or.inl (h ▸ rfl)
  | ok o =>
    rw [hv] at h
    cases o with
    | some r => simp at h
    | none =>
      cases hd : contactData env b with
      | error e1 =>
        rw [hd] at h
        simp only [Except.error.injEq] at h
        exact Or.inr ⟨rfl, h ▸ rfl⟩
      | ok data =>
        rw [hd] at h
        have h1 := sendConfirmationEmail_fst env data
          { w with console := w.console ++ [.newSubmission data] }
        rcases hc : sendConfirmationEmail env data
          { w with console := w.console ++ [.newSubmission data] } with ⟨r1, w2⟩
        rw [hc] at h1
        have h2 := sendAdminNotification_fst env data w2
        rcases ha : sendAdminNotification env data w2 with ⟨r2, w3⟩
        rw [ha] at h2
        simp only at h1 h2
        subst h1 h2
        simp [hc, ha] at h

/-- C17.  Whenever something raises while a request body is processed, the handler
catches it: it logs the error and answers with the redirect
`/contact?error=Something went wrong. Please try again or call us directly.`, which is
the same for every error and is not the success redirect, and no call was made to the
mail transport.  It does so for a phone that is a number and for a name that is not a
string. -/
theorem raised_error_gets_generic_redirect (env : Env) (b : Body) (w : World) (e : JSError)
    (h : (handleContactFormTry env b w).1 = .error e) :
    handleContactForm env b w =
        (.redirect somethingWentWrongUrl,
          { w with console := w.console ++ [.errorProcessing e] }) ∧
      (handleContactForm env b w).1 ≠ .redirect successUrl ∧
      (handleContactForm env b w).2.mail = w.mail := by
  have hr := handleContactForm_of_raised env b w e (handleContactFormTry_error_cases env b w e h)
  rw [hr]
  refine ⟨rfl, ?_, rfl⟩
  show Response.redirect somethingWentWrongUrl ≠ .redirect successUrl
  decide

/-- Witness of `raised_error_gets_generic_redirect`: the end-to-end example with the
name sent as an array, on which `studentName.trim` raises a TypeError, and with the
phone sent as the number 9876543210, on which `phone.replace` raises a TypeError. -/
theorem raised_error_gets_generic_redirect_witness :
    (handleContactForm workingEnv
        { ashaRao.toBody with studentName := .arr [.str "Asha Rao".toList] } emptyWorld).1
        = .redirect somethingWentWrongUrl ∧
    handleContactForm workingEnv
        { ashaRao.toBody with phone := .number 9876543210 } emptyWorld =
        (.redirect somethingWentWrongUrl,
          { emptyWorld with console := emptyWorld.console ++ [.errorProcessing .typeError] }) ∧
      (handleContactForm workingEnv
        { ashaRao.toBody with phone := .number 9876543210 } emptyWorld).1
        ≠ .redirect successUrl ∧
      (handleContactForm workingEnv
        { ashaRao.toBody with phone := .number 9876543210 } emptyWorld).2.mail
        = emptyWorld.mail :=
  ⟨congrArg Prod.fst (raised_error_gets_generic_redirect workingEnv
      { ashaRao.toBody with studentName := .arr [.str "Asha Rao".toList] } emptyWorld
      .typeError rfl).1,
    raised_error_gets_generic_redirect workingEnv
      { ashaRao.toBody with phone := .number 9876543210 } emptyWorld .typeError rfl⟩
/-! ## The global error handler -/

/-- C18.  In production the error handler sends the message `Page not found` when the
status is 404 and `Something went wrong` otherwise, and the details `null`; two errors
with the same status get the same reply, whatever their message and stack. -/
theorem production_reply_hides_error (timestamp url : JSString) (e1 e2 : ErrorObject)
    (hstatus : e1.status = e2.status) :
    (globalErrorHandler (some "production".toList) timestamp e1 url).message =
        (if is404 (e1.status.orElse (.number 500)) then "Page not found".toList
          else "Something went wrong".toList) ∧
      (globalErrorHandler (some "production".toList) timestamp e1 url).details = none ∧
      globalErrorHandler (some "production".toList) timestamp e1 url =
        globalErrorHandler (some "production".toList) timestamp e2 url := by
  have hprod : isProduction (some "production".toList) = true := by decide
  refine ⟨?_, ?_, ?_⟩
  · unfold globalErrorHandler
    simp only [hprod, if_true]
    split <;> rfl
  · unfold globalErrorHandler
    simp only [hprod, if_true]
    split <;> rfl
  · unfold globalErrorHandler
    simp only [hprod, if_true, hstatus]

/-- Witness of `production_reply_hides_error`: two errors with the status 404 and
different messages and stacks, on a page and on an API path. -/
theorem production_reply_hides_error_witness :
    (globalErrorHandler (some "production".toList) "2026-01-01T00:00:00.000Z".toList
        ⟨.number 404, "Page not found - /admin/secret".toList, "Error: at server.js:198".toList⟩
        "/admin/secret".toList).message
        = (if is404 ((JSValue.number 404).orElse (.number 500)) then "Page not found".toList
          else "Something went wrong".toList) ∧
      (globalErrorHandler (some "production".toList) "2026-01-01T00:00:00.000Z".toList
        ⟨.number 404, "Page not found - /admin/secret".toList, "Error: at server.js:198".toList⟩
        "/admin/secret".toList).details = none ∧
      globalErrorHandler (some "production".toList) "2026-01-01T00:00:00.000Z".toList
          ⟨.number 404, "Page not found - /admin/secret".toList,
            "Error: at server.js:198".toList⟩ "/admin/secret".toList =
        globalErrorHandler (some "production".toList) "2026-01-01T00:00:00.000Z".toList
          ⟨.number 404, "ENOENT: no such file".toList, "Error: at fs.js:1".toList⟩
          "/admin/secret".toList :=
  production_reply_hides_error "2026-01-01T00:00:00.000Z".toList "/admin/secret".toList
    ⟨.number 404, "Page not found - /admin/secret".toList, "Error: at server.js:198".toList⟩
    ⟨.number 404, "ENOENT: no such file".toList, "Error: at fs.js:1".toList⟩ rfl

/-! ## Routing -/

/-- C19 fails: under first-match routing in the order of registration, `GET /health`
and `GET /api/status` are answered by the catch-all `router.get('*')` of the index
router, with the status 404, since the router is mounted before the two endpoints; no
GET request reaches them.  With the router mounted after them, they would answer. -/
theorem health_endpoint_unreachable :
    dispatch serverRoutes .GET "/health" = some .indexNotFound ∧
      dispatch serverRoutes .GET "/api/status" = some .indexNotFound ∧
      Handler.status .indexNotFound = 404 ∧
      (⟨some .GET, .exact "/health", .health⟩ : Route) ∈ serverRoutes ∧
      (⟨some .GET, .exact "/api/status", .apiStatus⟩ : Route) ∈ serverRoutes ∧
      (∀ path, dispatch serverRoutes .GET path ≠ some .health ∧
        dispatch serverRoutes .GET path ≠ some .apiStatus) ∧
      dispatch
        ([⟨some .GET, .exact "/health", .health⟩, ⟨some .GET, .exact "/api/status", .apiStatus⟩]
          ++ indexRoutes) .GET "/health" = some .health := by
  refine ⟨by decide, by decide, rfl, by decide, by decide, ?_, by decide⟩
  intro path
  simp only [dispatch, serverRoutes, indexRoutes, List.cons_append, List.find?, Route.takes]
  constructor <;> (repeat' split) <;> simp_all

/-! ## Trimming and stripping meet their specification -/

theorem rdropWhile_append_rtakeWhile (p : Char → Bool) (l : JSString) :
    l.rdropWhile p ++ l.rtakeWhile p = l := by
  have h := List.takeWhile_append_dropWhile p l.reverse
  have h2 := congrArg List.reverse h
  rw [List.reverse_append, List.reverse_reverse] at h2
  exact h2

theorem isTrimmedFormOf_trim (s : JSString) : IsTrimmedFormOf (trim s) s := by
  refine ⟨⟨s.takeWhile isJSWhitespace, (s.dropWhile isJSWhitespace).rtakeWhile isJSWhitespace,
    ?_, ?_, ?_⟩, ?_, ?_⟩
  · rw [trim_eq_rdropWhile, List.append_assoc, rdropWhile_append_rtakeWhile,
      List.takeWhile_append_dropWhile]
  · intro c hc
    exact List.mem_takeWhile_imp hc
  · intro c hc
    exact List.mem_rtakeWhile_imp hc
  · intro c rest ht
    have hself : (trim s).dropWhile isJSWhitespace = trim s := by
      rw [trim_eq_rdropWhile]
      exact dropWhile_rdropWhile_of_eq_self (List.dropWhile_idempotent _ _)
    rw [ht] at hself
    simpa using not_head_of_dropWhile_eq_self hself
  · intro init c ht
    have hself : (trim s).rdropWhile isJSWhitespace = trim s := by
      rw [trim_eq_rdropWhile]
      exact List.rdropWhile_idempotent _ _
    have hlast := List.rdropWhile_eq_self_iff.mp hself
    have hne : trim s ≠ [] := by
      rw [ht]
      simp
    have := hlast hne
    simp only [ht, List.getLast_append_singleton] at this
    simpa using this

theorem isWhitespaceFreeFormOf_removeWhitespace (s : JSString) :
    IsWhitespaceFreeFormOf (removeWhitespace s) s := by
  refine ⟨List.filter_sublist s, ?_, ?_⟩
  · intro c hc
    have := (List.mem_filter.mp hc).2
    simpa using this
  · have h := List.length_eq_countP_add_countP (p := isJSWhitespace) s
    rw [removeWhitespace, ← List.countP_eq_length_filter]
    have hsame : List.countP (fun c => !isJSWhitespace c) s
        = List.countP (fun a => decide ¬isJSWhitespace a = true) s := by
      congr 1
      funext c
      cases isJSWhitespace c <;> rfl
    rw [hsame]
    omega

/-- C10.  For a submission that passes the checks of the handler, the record that is
built and logged has: as email the submitted email lower-cased, then trimmed; as phone
the submitted phone with all whitespace removed; as name the submitted name trimmed; as
message the submitted message trimmed, or the empty string when none was sent; the
status `new`; and, when they were not submitted, the session type `home` and the
experience `complete-beginner`. -/
theorem record_of_valid_submission (env : Env) (s : Submission) (w : World)
    (hv : validation s.toBody = .ok none) :
    ∃ data rest, contactData env s.toBody = .ok data ∧
      (handleContactForm env s.toBody w).2.console = w.console ++ .newSubmission data :: rest ∧
      (∃ e, s.email = some e ∧ IsTrimmedFormOf data.email (env.toLowerCase e)) ∧
      (∃ p, s.phone = some p ∧ IsWhitespaceFreeFormOf data.phone p) ∧
      (∃ n, s.studentName = some n ∧ IsTrimmedFormOf data.studentName n) ∧
      (∀ m, s.message = some m → IsTrimmedFormOf data.message m) ∧
      (s.message = none → data.message = []) ∧
      data.status = "new".toList ∧
      (s.sessionType = none → data.sessionType = .str "home".toList) ∧
      (s.experience = none → data.experience = .str "complete-beginner".toList) := by
  obtain ⟨n, p, e, hn, hp, he, hd⟩ := contactData_of_valid_submission env s hv
  obtain ⟨rest, hrest⟩ := handleContactForm_console_of_built env s.toBody w _ hv hd
  refine ⟨_, rest, hd, hrest, ⟨e, he, isTrimmedFormOf_trim _⟩,
    ⟨p, hp, isWhitespaceFreeFormOf_removeWhitespace p⟩, ⟨n, hn, isTrimmedFormOf_trim n⟩,
    ?_, ?_, rfl, ?_, ?_⟩
  · intro m hm
    simp only [recordOf, hm, Option.map_some', Option.getD_some]
    exact isTrimmedFormOf_trim m
  · intro hm
    simp [recordOf, hm]
  · intro h
    simp [recordOf, h, fieldValue, JSValue.orElse, JSValue.truthy]
  · intro h
    simp [recordOf, h, fieldValue, JSValue.orElse, JSValue.truthy]

/-- Witness of `record_of_valid_submission`: the end-to-end example typed with
whitespace around the name, inside the phone and around the message; the email
`ASHA@Example.com` becomes `asha@example.com`, the phone `98765 43210` becomes
`9876543210`, the name and the message lose the whitespace at their ends. -/
theorem record_of_valid_submission_witness :
    (∃ data, contactData workingEnv ashaRaoSpaced.toBody = .ok data ∧
        data.email = "asha@example.com".toList ∧
        data.phone = "9876543210".toList ∧
        data.studentName = "Asha Rao".toList ∧
        data.message = "Evening classes please".toList ∧
        data.status = "new".toList ∧
        data.sessionType = .str "home".toList ∧
        data.experience = .str "complete-beginner".toList) ∧
      ∃ data rest, contactData workingEnv ashaRaoSpaced.toBody = .ok data ∧
        (handleContactForm workingEnv ashaRaoSpaced.toBody emptyWorld).2.console
          = emptyWorld.console ++ .newSubmission data :: rest ∧
        (∃ e, ashaRaoSpaced.email = some e ∧
          IsTrimmedFormOf data.email (workingEnv.toLowerCase e)) ∧
        (∃ p, ashaRaoSpaced.phone = some p ∧ IsWhitespaceFreeFormOf data.phone p) ∧
        (∃ n, ashaRaoSpaced.studentName = some n ∧ IsTrimmedFormOf data.studentName n) ∧
        (∀ m, ashaRaoSpaced.message = some m → IsTrimmedFormOf data.message m) ∧
        (ashaRaoSpaced.message = none → data.message = []) ∧
        data.status = "new".toList ∧
        (ashaRaoSpaced.sessionType = none → data.sessionType = .str "home".toList) ∧
        (ashaRaoSpaced.experience = none →
          data.experience = .str "complete-beginner".toList) :=
  ⟨⟨_, rfl, rfl, rfl, rfl, rfl, rfl, rfl, rfl⟩,
    record_of_valid_submission workingEnv ashaRaoSpaced emptyWorld rfl⟩

/-! ## The record against the data model -/

theorem checks_of_valid (b : Body) (hv : validation b = .ok none) :
    emailRegex.test b.email.toStr = true ∧
      ∃ digits, b.phone.callRemoveWhitespace = .ok digits ∧ phoneRegex.test digits = true := by
  unfold validation at hv
  split at hv
  · cases hv
  · split at hv
    · cases hv
    · rename_i hemail
      split at hv
      · cases hv
      · rename_i digits hdigits
        split at hv
        · cases hv
        · rename_i hphone
          refine ⟨by simpa using hemail, digits, hdigits, by simpa using hphone⟩

theorem subjects_of_subjectsValidator (v : JSValue) (h : subjectsValidator v = .ok true) :
    selectedSubjects v ≠ [] ∧ ∀ x ∈ selectedSubjects v, ∃ t ∈ validSubjects, x = .str t := by
  rw [subjectsValidator_eq] at h
  have hne : (resolvedSubjects v).isEmpty = false := by
    by_contra hc
    simp only [Bool.not_eq_false] at hc
    rw [hc] at h
    simp at h
  have hall : (resolvedSubjects v).all includesSubject = true := by
    by_contra hc
    rw [hne] at h
    simp [hc] at h
  have hsame : selectedSubjects v = resolvedSubjects v := by
    cases v with
    | arr xs => rfl
    | undefined => exact absurd hne (by decide)
    | null => exact absurd hne (by decide)
    | object => rfl
    | bool b =>
      cases b with
      | true => rfl
      | false => exact absurd hne (by decide)
    | number n =>
      by_cases hn : n = 0
      · subst hn
        exact absurd hne (by decide)
      · simp [selectedSubjects, resolvedSubjects, JSValue.truthy, hn]
    | str s =>
      cases s with
      | nil => exact absurd hne (by decide)
      | cons c cs => rfl
  rw [hsame]
  refine ⟨?_, ?_⟩
  · intro h0
    rw [h0] at hne
    exact absurd hne (by decide)
  · intro x hx
    exact (includesSubject_iff x).mp (List.all_eq_true.mp hall x hx)

theorem placeholder_of_omitted_or_empty (f : Option JSString) (d : JSString)
    (h : f = none ∨ f = some []) : (fieldValue f).orElse (.str d) = .str d := by
  rcases h with rfl | rfl <;> rfl

set_option maxRecDepth 100000 in
/-- C11 (as stated) fails twice.  The end-to-end example omits tutorGender, budget and
age and passes the rules of the validator: its record has the tutorGender
`No preference`, which is none of `male`, `female` and the empty string, and the budget
and age `Not specified`, which are not values of the data model either.  Sent with a
message of 500 letters and one variation selector, which the validator counts as 500
characters, it passes the rules too, and its record has a message of 501 characters. -/
theorem omitted_fields_get_placeholders :
    passesEnumRules ashaRao = true ∧ validation ashaRao.toBody = .ok none ∧
      subjectsValidator ashaRao.subjects.toValue = .ok true ∧
      messageErrors ashaRao.message = [] ∧
      ashaRao.tutorGender = none ∧ ashaRao.budget = none ∧ ashaRao.age = none ∧
      (∃ data, contactData workingEnv ashaRao.toBody = .ok data ∧
        data.tutorGender = .str "No preference".toList ∧
        "No preference".toList ∉ validTutorGenders ∧
        data.budget = .str "Not specified".toList ∧
        "Not specified".toList ∉ validBudgets ∧
        data.age = .str "Not specified".toList ∧
        "Not specified".toList ∉ validAges) ∧
      passesEnumRules ashaRaoLongMessage = true ∧
      validation ashaRaoLongMessage.toBody = .ok none ∧
      subjectsValidator ashaRaoLongMessage.subjects.toValue = .ok true ∧
      messageErrors ashaRaoLongMessage.message = [] ∧
      (∃ data, contactData workingEnv ashaRaoLongMessage.toBody = .ok data ∧
        data.message.length = 501) :=
  ⟨by decide, rfl, rfl, rfl, rfl, rfl, rfl,
    ⟨_, rfl, rfl, by decide, rfl, by decide, rfl, by decide⟩,
    by decide, rfl, rfl, by decide, ⟨_, rfl, by decide⟩⟩

/-- C11 (amended).  For a submission that passes the checks of the handler and the
rules of the validator on the enumerated fields, the subjects and the message, the
record satisfies the constraints of the data model but for three defaults and the count
of the message: its phone is ten digits, the first in 6..9; its email is the submitted
email, of the shape the handler checks, lower-cased and trimmed; its subjects are a
non-empty list of whitelisted subjects; its learningGoal, area, sessionType and
experience are in their lists of values; its status is `new`, a value of the status
list; its submittedAt is the clock.  Its tutorGender is `male`, `female` or
`No preference`, its budget a bracketed range or `Not specified`, its age one of the
four ranges or `Not specified`, the placeholders standing for an omitted or empty
tutorGender and budget and for an omitted age.  Its message has at most 500 characters
as the validator counts them, that is without the variation selectors, hence at most
500 characters when it has none. -/
theorem record_fields_of_validated_submission (env : Env) (s : Submission)
    (hv : validation s.toBody = .ok none) (hrules : passesEnumRules s = true)
    (hsubjects : subjectsValidator s.subjects.toValue = .ok true)
    (hmessage : messageErrors s.message = []) :
    ∃ data, contactData env s.toBody = .ok data ∧
      isTenDigitMobile data.phone = true ∧
      (∃ e, s.email = some e ∧ emailRegex.test e = true ∧
        data.email = trim (env.toLowerCase e)) ∧
      (data.subjects ≠ [] ∧ ∀ x ∈ data.subjects, ∃ t ∈ validSubjects, x = .str t) ∧
      (∃ x, data.learningGoal = .str x ∧ x ∈ validLearningGoals) ∧
      (∃ x, data.area = .str x ∧ x ∈ validAreas) ∧
      (∃ x, data.sessionType = .str x ∧ x ∈ validSessionTypes) ∧
      (∃ x, data.experience = .str x ∧ x ∈ validExperiences) ∧
      (data.status = "new".toList ∧ data.status ∈ validStatuses) ∧
      data.submittedAt = env.now ∧
      (∃ x, data.tutorGender = .str x ∧
        (x = "No preference".toList ∨ (x ∈ validTutorGenders ∧ x ≠ []))) ∧
      (∃ x, data.budget = .str x ∧ (x = "Not specified".toList ∨ (x ∈ validBudgets ∧ x ≠ []))) ∧
      (∃ x, data.age = .str x ∧ (x = "Not specified".toList ∨ (x ∈ validAges ∧ x ≠ []))) ∧
      ((s.tutorGender = none ∨ s.tutorGender = some []) →
        data.tutorGender = .str "No preference".toList) ∧
      ((s.budget = none ∨ s.budget = some []) → data.budget = .str "Not specified".toList) ∧
      (s.age = none → data.age = .str "Not specified".toList) ∧
      validatorLength data.message ≤ 500 ∧
      ((∀ c ∈ data.message, isVariationSelector c = false) → data.message.length ≤ 500) := by
  obtain ⟨n, p, e, _, hp, he, hd⟩ := contactData_of_valid_submission env s hv
  obtain ⟨hemail, digits, hdigits, hphone⟩ := checks_of_valid s.toBody hv
  simp only [passesEnumRules, Bool.and_eq_true] at hrules
  obtain ⟨⟨⟨⟨⟨⟨hage, hgoal⟩, harea⟩, hgender⟩, hsession⟩, hbudget⟩, hexp⟩ := hrules
  have hlen : validatorLength ((s.message.map trim).getD []) ≤ 500 := by
    cases hm : s.message with
    | none => decide
    | some m =>
      rw [hm] at hmessage
      simp only [messageErrors] at hmessage
      show validatorLength (trim m) ≤ 500
      by_contra hc
      simp [hc] at hmessage
  refine ⟨_, hd, ?_, ⟨e, he, ?_, rfl⟩, subjects_of_subjectsValidator _ hsubjects,
    required_field_of_isIn hgoal (by decide), required_field_of_isIn harea (by decide),
    ?_, ?_, ⟨rfl, (by decide : "new".toList ∈ validStatuses)⟩, rfl,
    defaulted_field_cases _ hgender,
    defaulted_field_cases _ hbudget, defaulted_field_cases _ hage,
    placeholder_of_omitted_or_empty _ _, placeholder_of_omitted_or_empty _ _,
    fun h => placeholder_of_omitted_or_empty _ _ (Or.inl h), hlen, ?_⟩
  · simp only [Submission.toBody, hp, fieldValue, JSValue.callRemoveWhitespace,
      Except.ok.injEq] at hdigits
    rw [phoneRegex_test_eq, ← hdigits] at hphone
    exact hphone
  · simpa [Submission.toBody, he, fieldValue, JSValue.toStr] using hemail
  · obtain ⟨x, hx, hcase⟩ := defaulted_field_cases "home".toList hsession
    refine ⟨x, hx, ?_⟩
    rcases hcase with rfl | ⟨hmem, _⟩
    · decide
    · exact hmem
  · obtain ⟨x, hx, hcase⟩ := defaulted_field_cases "complete-beginner".toList hexp
    refine ⟨x, hx, ?_⟩
    rcases hcase with rfl | ⟨hmem, _⟩
    · decide
    · exact hmem
  · intro hnone
    have hzero : List.countP isVariationSelector ((s.message.map trim).getD []) = 0 := by
      rw [List.countP_eq_zero]
      intro c hc
      simp [hnone c hc]
    have hl := hlen
    simp only [validatorLength, hzero, Nat.sub_zero] at hl
    exact hl

/-- Witness of `record_fields_of_validated_submission`: the end-to-end example. -/
theorem record_fields_of_validated_submission_witness :
    ∃ data, contactData workingEnv ashaRao.toBody = .ok data ∧
      isTenDigitMobile data.phone = true ∧
      (∃ e, ashaRao.email = some e ∧ emailRegex.test e = true ∧
        data.email = trim (workingEnv.toLowerCase e)) ∧
      (data.subjects ≠ [] ∧ ∀ x ∈ data.subjects, ∃ t ∈ validSubjects, x = .str t) ∧
      (∃ x, data.learningGoal = .str x ∧ x ∈ validLearningGoals) ∧
      (∃ x, data.area = .str x ∧ x ∈ validAreas) ∧
      (∃ x, data.sessionType = .str x ∧ x ∈ validSessionTypes) ∧
      (∃ x, data.experience = .str x ∧ x ∈ validExperiences) ∧
      (data.status = "new".toList ∧ data.status ∈ validStatuses) ∧
      data.submittedAt = workingEnv.now ∧
      (∃ x, data.tutorGender = .str x ∧
        (x = "No preference".toList ∨ (x ∈ validTutorGenders ∧ x ≠ []))) ∧
      (∃ x, data.budget = .str x ∧ (x = "Not specified".toList ∨ (x ∈ validBudgets ∧ x ≠ []))) ∧
      (∃ x, data.age = .str x ∧ (x = "Not specified".toList ∨ (x ∈ validAges ∧ x ≠ []))) ∧
      ((ashaRao.tutorGender = none ∨ ashaRao.tutorGender = some []) →
        data.tutorGender = .str "No preference".toList) ∧
      ((ashaRao.budget = none ∨ ashaRao.budget = some []) →
        data.budget = .str "Not specified".toList) ∧
      (ashaRao.age = none → data.age = .str "Not specified".toList) ∧
      validatorLength data.message ≤ 500 ∧
      ((∀ c ∈ data.message, isVariationSelector c = false) → data.message.length ≤ 500) :=
  record_fields_of_validated_submission workingEnv ashaRao rfl (by decide) rfl rfl

/-! ## Rate limiting -/

theorem contactRateLimit_running (store : RateStore) (client : JSString) (now k T : Nat)
    (hstore : store client = some ⟨k, T⟩) (hnow : now < T) :
    (contactRateLimit store client now).1 = decide (k + 1 ≤ 3) ∧
      (contactRateLimit store client now).2 client = some ⟨k + 1, T⟩ := by
  simp [contactRateLimit, hstore, hnow, rateLimitMax]

theorem contactRateLimit_opening (store : RateStore) (client : JSString) (now : Nat)
    (hstore : ∀ win, store client = some win → win.resetTime ≤ now) :
    (contactRateLimit store client now).1 = true ∧
      (contactRateLimit store client now).2 client = some ⟨1, now + windowMs⟩ := by
  cases h : store client with
  | none => simp [contactRateLimit, h, rateLimitMax]
  | some win =>
    have hle := hstore win h
    have hnot : ¬ now < win.resetTime := by omega
    simp [contactRateLimit, h, hnot, rateLimitMax]

theorem contactRateLimit_other (store : RateStore) (client other : JSString) (now : Nat)
    (hne : other ≠ client) :
    (contactRateLimit store client now).2 other = store other := by
  simp [contactRateLimit, hne]

theorem serveLimited_store (env : Env) (req : LimitedRequest) (st : ServerState) :
    (serveLimited env req st).2.store = (contactRateLimit st.store req.client req.time).2 := by
  unfold serveLimited
  rcases hlim : contactRateLimit st.store req.client req.time with ⟨pass, store1⟩
  cases pass with
  | false => rfl
  | true =>
    rcases hroute : routeAfterLimiter env req st.world with ⟨r, w1⟩
    rfl

theorem serveLimited_of_pass (env : Env) (req : LimitedRequest) (st : ServerState)
    (hpass : (contactRateLimit st.store req.client req.time).1 = true) :
    (serveLimited env req st).1 = (routeAfterLimiter env req st.world).1 ∧
      (serveLimited env req st).2.world = (routeAfterLimiter env req st.world).2 := by
  unfold serveLimited
  rcases hlim : contactRateLimit st.store req.client req.time with ⟨pass, store1⟩
  rw [hlim] at hpass
  simp only at hpass
  subst hpass
  rcases hroute : routeAfterLimiter env req st.world with ⟨r, w1⟩
  exact ⟨rfl, rfl⟩

theorem serveLimited_of_reject (env : Env) (req : LimitedRequest) (st : ServerState)
    (hpass : (contactRateLimit st.store req.client req.time).1 = false) :
    (serveLimited env req st).1 = some (.send 429 rateLimitMessage) ∧
      (serveLimited env req st).2.world = st.world := by
  unfold serveLimited
  rcases hlim : contactRateLimit st.store req.client req.time with ⟨pass, store1⟩
  rw [hlim] at hpass
  simp only at hpass
  subst hpass
  exact ⟨rfl, rfl⟩

theorem serveLimitedAll_cons (env : Env) (req : LimitedRequest) (rest : List LimitedRequest)
    (st : ServerState) :
    (serveLimitedAll env (req :: rest) st).2
      = (serveLimitedAll env rest (serveLimited env req st).2).2 := by
  rw [serveLimitedAll]

theorem serveLimitedAll_store (env : Env) (c : JSString) :
    ∀ (reqs : List LimitedRequest) (st : ServerState) (k T : Nat),
      st.store c = some ⟨k, T⟩ → (∀ x ∈ reqs, x.client = c → x.time < T) →
      (serveLimitedAll env reqs st).2.store c
        = some ⟨k + reqs.countP (fun x => x.client == c), T⟩ := by
  intro reqs
  induction reqs with
  | nil =>
    intro st k T hstore _
    simpa [serveLimitedAll] using hstore
  | cons x rest ih =>
    intro st k T hstore hall
    have hrest : ∀ y ∈ rest, y.client = c → y.time < T :=
      fun y hy => hall y (List.mem_cons_of_mem x hy)
    rw [serveLimitedAll_cons]
    by_cases hx : x.client = c
    · have hnext : (serveLimited env x st).2.store c = some ⟨k + 1, T⟩ := by
        rw [serveLimited_store, hx]
        exact (contactRateLimit_running st.store c x.time k T hstore
          (hall x (List.mem_cons_self x rest) hx)).2
      rw [ih _ (k + 1) T hnext hrest, List.countP_cons_of_pos _ _ (by simpa using hx)]
      congr 2
      omega
    · have hnext : (serveLimited env x st).2.store c = some ⟨k, T⟩ := by
        rw [serveLimited_store, contactRateLimit_other _ _ _ _ (fun h => hx h.symm)]
        exact hstore
      rw [ih _ k T hnext hrest, List.countP_cons_of_neg _ _ (by simpa using hx)]

set_option maxRecDepth 100000 in
/-- C15 (as stated) fails: the three routes `POST /contact`, `POST /contact/api` and
`POST /contact/quick-call` share the one limiter, so after two quick-call requests and
one API request of a client, its first request to `POST /contact` in the window, with a
valid payload, is answered by the limiter with status 429. -/
theorem first_contact_request_can_be_limited :
    (serveLimitedAll workingEnv
        [quickCallRequestAt 0, quickCallRequestAt 1000, apiRequestAt 2000,
          contactRequestAt 3000] freshServer).1
      = [some (.json 200 (.success "We'll call you back within 30 minutes!")),
          some (.json 200 (.success "We'll call you back within 30 minutes!")),
          some (.redirect successUrl),
          some (.send 429 "Too many contact form submissions, please try again later.")] ∧
      (contactRequestAt 3000).errors = [] ∧
      (routeAfterLimiter workingEnv (contactRequestAt 3000) emptyWorld).1
        = some (.redirect successUrl) := by
  refine ⟨by decide, rfl, by decide⟩

/-- C15 (amended).  The limiter comes first on the three routes `POST /contact`,
`POST /contact/api` and `POST /contact/quick-call`, which share it, and caps each client
at 3 requests per window of 900000 ms over the three routes together.  Take a request
that opens a window of its client, then any requests of any clients, then a request of
the same client, all those of this client falling in the window: the opening request is
passed on to validation and to the rest of its route; the last one is passed on when
fewer than 3 requests of the client came before it, whatever the other clients sent,
and otherwise is answered by the limiter with status 429 and its message, whatever its
payload, leaving the world as it was. -/
theorem rate_limit_caps_client (env : Env) (opening : LimitedRequest)
    (between : List LimitedRequest) (last : LimitedRequest) (st : ServerState)
    (hstart : ∀ win, st.store opening.client = some win → win.resetTime ≤ opening.time)
    (hbetween : ∀ x ∈ between, x.client = opening.client →
      x.time < opening.time + windowMs)
    (hclient : last.client = opening.client)
    (htime : last.time < opening.time + windowMs) :
    windowMs = 900000 ∧ rateLimitMax = 3 ∧
      ((serveLimited env opening st).1 = (routeAfterLimiter env opening st.world).1 ∧
        (serveLimited env opening st).2.world = (routeAfterLimiter env opening st.world).2) ∧
      (1 + between.countP (fun x => x.client == opening.client) < 3 →
        (serveLimited env last (serveLimitedAll env (opening :: between) st).2).1 =
            (routeAfterLimiter env last
              (serveLimitedAll env (opening :: between) st).2.world).1 ∧
          (serveLimited env last (serveLimitedAll env (opening :: between) st).2).2.world =
            (routeAfterLimiter env last
              (serveLimitedAll env (opening :: between) st).2.world).2) ∧
      (3 ≤ 1 + between.countP (fun x => x.client == opening.client) →
        (serveLimited env last (serveLimitedAll env (opening :: between) st).2).1 =
            some (.send 429 rateLimitMessage) ∧
          (serveLimited env last (serveLimitedAll env (opening :: between) st).2).2.world =
            (serveLimitedAll env (opening :: between) st).2.world) := by
  obtain ⟨hpass, hnext⟩ := contactRateLimit_opening st.store opening.client opening.time hstart
  have hopened : (serveLimited env opening st).2.store opening.client
      = some ⟨1, opening.time + windowMs⟩ := by
    rw [serveLimited_store]
    exact hnext
  have hstore : (serveLimitedAll env (opening :: between) st).2.store opening.client
      = some ⟨1 + between.countP (fun x => x.client == opening.client),
          opening.time + windowMs⟩ := by
    rw [serveLimitedAll_cons]
    exact serveLimitedAll_store env opening.client between _ 1 _ hopened hbetween
  obtain ⟨hdecide, _⟩ := contactRateLimit_running
    (serveLimitedAll env (opening :: between) st).2.store opening.client last.time _ _
    hstore htime
  refine ⟨rfl, rfl, serveLimited_of_pass env opening st hpass, ?_, ?_⟩
  · intro hfew
    apply serveLimited_of_pass
    rw [hclient, hdecide]
    exact decide_eq_true (by omega)
  · intro hmany
    apply serveLimited_of_reject
    rw [hclient, hdecide]
    exact decide_eq_false (by omega)

set_option maxRecDepth 100000 in
/-- Witness of `rate_limit_caps_client`: after a quick-call request, an API request and
a contact request of one client, with a request of another client in between, the next
contact request of the client is answered by the limiter; after one request of the
client and three of another client, it is passed on and gets the success redirect. -/
theorem rate_limit_caps_client_witness :
    ((serveLimited workingEnv (contactRequestAt 3000)
          (serveLimitedAll workingEnv
            (quickCallRequestAt 0 ::
              [apiRequestAt 1000, otherClientRequestAt 1500, contactRequestAt 2000])
            freshServer).2).1 = some (.send 429 rateLimitMessage) ∧
        (serveLimited workingEnv (contactRequestAt 3000)
          (serveLimitedAll workingEnv
            (quickCallRequestAt 0 ::
              [apiRequestAt 1000, otherClientRequestAt 1500, contactRequestAt 2000])
            freshServer).2).2.world =
          (serveLimitedAll workingEnv
            (quickCallRequestAt 0 ::
              [apiRequestAt 1000, otherClientRequestAt 1500, contactRequestAt 2000])
            freshServer).2.world) ∧
      ((serveLimited workingEnv (contactRequestAt 3000)
          (serveLimitedAll workingEnv
            (quickCallRequestAt 0 ::
              [otherClientRequestAt 500, otherClientRequestAt 1000, otherClientRequestAt 1500])
            freshServer).2).1 =
          (routeAfterLimiter workingEnv (contactRequestAt 3000)
            (serveLimitedAll workingEnv
              (quickCallRequestAt 0 ::
                [otherClientRequestAt 500, otherClientRequestAt 1000,
                  otherClientRequestAt 1500])
              freshServer).2.world).1 ∧
        (serveLimited workingEnv (contactRequestAt 3000)
          (serveLimitedAll workingEnv
            (quickCallRequestAt 0 ::
              [otherClientRequestAt 500, otherClientRequestAt 1000, otherClientRequestAt 1500])
            freshServer).2).2.world =
          (routeAfterLimiter workingEnv (contactRequestAt 3000)
            (serveLimitedAll workingEnv
              (quickCallRequestAt 0 ::
                [otherClientRequestAt 500, otherClientRequestAt 1000,
                  otherClientRequestAt 1500])
              freshServer).2.world).2) ∧
      (serveLimited workingEnv (contactRequestAt 3000)
          (serveLimitedAll workingEnv
            (quickCallRequestAt 0 ::
              [otherClientRequestAt 500, otherClientRequestAt 1000, otherClientRequestAt 1500])
            freshServer).2).1 = some (.redirect successUrl) :=
  ⟨(rate_limit_caps_client workingEnv (quickCallRequestAt 0)
      [apiRequestAt 1000, otherClientRequestAt 1500, contactRequestAt 2000]
      (contactRequestAt 3000) freshServer (fun win h => by cases h) (by decide) rfl
      (by decide)).2.2.2.2 (by decide),
    (rate_limit_caps_client workingEnv (quickCallRequestAt 0)
      [otherClientRequestAt 500, otherClientRequestAt 1000, otherClientRequestAt 1500]
      (contactRequestAt 3000) freshServer (fun win h => by cases h) (by decide) rfl
      (by decide)).2.2.2.1 (by decide),
    by decide⟩

end ContactForm
